import Mathlib

/-!
Verification of the expense-tracking backend's transaction pipeline:
a shallow embedding of the spreadsheet read/append/reconcile routes and the
extraction-normalization step, with theorems checking the specification's
claims about them.

JavaScript numbers are modelled as rationals (`ℚ`); JavaScript string
operations are modelled by executable functions over `List Char`.
-/

namespace VibeBudget

/-! ### JavaScript string primitives -/

/-- Whitespace characters recognised by `String.prototype.trim` (the common ones). -/
def isJsWhitespace (c : Char) : Bool :=
  c == ' ' || c == '\t' || c == '\n' || c == '\r'

/-- ASCII digit test (matches `\d` on the strings this app handles). -/
def isDigitChar (c : Char) : Bool :=
  48 ≤ c.toNat && c.toNat ≤ 57

/-- Models `s.trim()` -/
def jsTrim (s : String) : String :=
  ⟨((s.data.dropWhile isJsWhitespace).reverse.dropWhile isJsWhitespace).reverse⟩

/-- Models `c.toLowerCase()` for a single character (ASCII). -/
def jsToLowerChar (c : Char) : Char :=
  if 65 ≤ c.toNat ∧ c.toNat ≤ 90 then Char.ofNat (c.toNat + 32) else c

/-- Models `s.toLowerCase()` (ASCII). -/
def jsToLower (s : String) : String :=
  ⟨s.data.map jsToLowerChar⟩

/-- Split a character list at every occurrence of `sep` (empty segments kept). -/
def splitOnCharAux (sep : Char) : List Char → List Char → List (List Char)
  | [], acc => [acc.reverse]
  | c :: rest, acc =>
      if c = sep then acc.reverse :: splitOnCharAux sep rest []
      else splitOnCharAux sep rest (c :: acc)

/-- Models `s.split(sep)` for a one-character separator. -/
def jsSplit (sep : Char) (s : String) : List String :=
  (splitOnCharAux sep s.data []).map String.mk

/-- Models `s.replace(/[$,]/g, "")` -/
def stripCurrencyChars (s : String) : String :=
  ⟨s.data.filter (fun c => !(c == '$' || c == ','))⟩

/-- Numeric value of a digit character. -/
def digitVal (c : Char) : Nat := c.toNat - 48

/-- Numeric value of a string of digit characters (most significant first). -/
def digitsVal (cs : List Char) : Nat :=
  cs.foldl (fun a c => 10 * a + digitVal c) 0

/-- The character for a digit value below ten. -/
def digitChar (n : Nat) : Char :=
  match n with
  | 0 => '0' | 1 => '1' | 2 => '2' | 3 => '3' | 4 => '4'
  | 5 => '5' | 6 => '6' | 7 => '7' | 8 => '8' | _ => '9'

/-- Decimal digits of `n`, most significant first, prepended to `acc`
(`fuel`-bounded structural recursion; callers pass `fuel > n`). -/
def natToCharsAux : Nat → Nat → List Char → List Char
  | 0, _, acc => acc
  | fuel + 1, n, acc =>
      if n < 10 then digitChar n :: acc
      else natToCharsAux fuel (n / 10) (digitChar (n % 10) :: acc)

/-- Decimal rendering of a natural number (as JavaScript renders integers). -/
def natToStr (n : Nat) : String :=
  ⟨natToCharsAux (n + 1) n []⟩

/-- Decimal rendering of an integer. -/
def intToStr (n : Int) : String :=
  if n < 0 then "-" ++ natToStr n.natAbs else natToStr n.natAbs

/-- Consume an optional leading sign, reporting whether it was a minus. -/
def parseSign (cs : List Char) : Bool × List Char :=
  match cs with
  | '-' :: rest => (true, rest)
  | '+' :: rest => (false, rest)
  | _ => (false, cs)

/-- Models `parseFloat(s)`: skip leading whitespace, optional sign, then a decimal
prefix `digits[.digits]`; `none` models `NaN` (no digits at all).  Exponent
notation and `Infinity` are outside what this app's money strings use and are
not modelled. -/
def jsParseFloat (s : String) : Option ℚ :=
  let signed := parseSign (s.data.dropWhile isJsWhitespace)
  let intPart := signed.2.takeWhile isDigitChar
  let afterInt := signed.2.dropWhile isDigitChar
  let fracPart :=
    match afterInt with
    | '.' :: rest => rest.takeWhile isDigitChar
    | _ => []
  if intPart.isEmpty && fracPart.isEmpty then none
  else
    let mag : ℚ :=
      if fracPart.isEmpty then (digitsVal intPart : ℚ)
      else (digitsVal intPart : ℚ) + (digitsVal fracPart : ℚ) / (10 : ℚ) ^ fracPart.length
    some (if signed.1 then -mag else mag)

/-- Models `parseFloat(s.replace(/[$,]/g, "")) || 0` — the app's money parse. -/
def parseMoney (s : String) : ℚ :=
  (jsParseFloat (stripCurrencyChars s)).getD 0

/-- Models `` `${parseInt(s, 10)}` `` : decimal rendering of `parseInt(s, 10)`,
`"NaN"` when no digits are found. -/
def jsParseIntStr (s : String) : String :=
  let signed := parseSign (s.data.dropWhile isJsWhitespace)
  let ds := signed.2.takeWhile isDigitChar
  if ds.isEmpty then "NaN"
  else if signed.1 ∧ digitsVal ds ≠ 0 then "-" ++ natToStr (digitsVal ds)
  else natToStr (digitsVal ds)

/-- Models `s.padStart(2, "0")` -/
def padStart2 (s : String) : String :=
  if s.data.length < 2 then ⟨List.replicate (2 - s.data.length) '0' ++ s.data⟩ else s

/-- The test `/^\d{4}-\d{2}-\d{2}$/.test(s)`. -/
def isIsoDate (s : String) : Bool :=
  match s.data with
  | [y1, y2, y3, y4, '-', m1, m2, '-', d1, d2] =>
      isDigitChar y1 && isDigitChar y2 && isDigitChar y3 && isDigitChar y4 &&
      isDigitChar m1 && isDigitChar m2 && isDigitChar d1 && isDigitChar d2
  | _ => false

/-- The test `/^\d{1,2}\/\d{1,2}\/\d{4}$/.test(s)` (via the slash split,
which is equivalent for an anchored pattern). -/
def isMdyDate (s : String) : Bool :=
  match splitOnCharAux '/' s.data [] with
  | [m, d, y] =>
      (m.length == 1 || m.length == 2) && (d.length == 1 || d.length == 2) &&
      y.length == 4 && m.all isDigitChar && d.all isDigitChar && y.all isDigitChar
  | _ => false

end VibeBudget

namespace VibeBudget

/-! ### Data model -/

/-- A validated line item (`TransactionItem` in `process/route.ts`). -/
structure TransactionItem where
  merchant : String
  date : String
  category : String
  item : String
  cost : ℚ
deriving DecidableEq, Repr

/-- A cell value as written to / read from the tabular store: either text or a
genuine number.  The store adapter writes with typed interpretation
(`USER_ENTERED`), so a numeric cell reads back as its numeric value. -/
inductive SheetVal where
  | str (s : String)
  | num (q : ℚ)
deriving DecidableEq, Repr

/-- Text rendering of a numeric cell.  The claims never inspect the text of a
numeric cell placed in a text column, so an exact simple rendering suffices. -/
def numText (q : ℚ) : String :=
  if q.den == 1 then intToStr q.num else intToStr q.num ++ "/" ++ natToStr q.den

/-- Models `v.toString()` for a cell value. -/
def cellText : SheetVal → String
  | .str s => s
  | .num q => numText q

/-- A parsed row of the Transactions sheet (`TransactionRow` in the GET route). -/
structure TransactionRow where
  merchant : String
  date : String
  category : String
  item : String
  cost : ℚ
deriving DecidableEq, Repr

/-! ### Transaction Reader (GET /api/sheets/transactions) -/

/-- Models `row[i]?.toString().trim() || ""` -/
def readCellText (c : Option SheetVal) : String :=
  match c with
  | none => ""
  | some v => jsTrim (cellText v)

/-- Models `parseFloat((row[4]?.toString().trim() || "0").replace(/[$,]/g, "")) || 0`.
For a numeric cell, JavaScript's `parseFloat(String(x))` returns `x` exactly
(and the rendering contains no `$` or `,`), so per the store adapter contract
a numeric cost cell reads back as its value. -/
def readCellCost (c : Option SheetVal) : ℚ :=
  match c with
  | some (.num q) => q
  | some (.str s) =>
      let t := jsTrim s
      parseMoney (if t = "" then "0" else t)
  | none => parseMoney "0"

/-- The reader's row loop: carry-forward merchant and date, emit a row when
merchant, date and item are non-empty after carry-forward substitution. -/
def readTransactionsAux : List (List SheetVal) → String → String → List TransactionRow
  | [], _, _ => []
  | row :: rest, curM, curD =>
      if row.length = 0 then readTransactionsAux rest curM curD
      else
        let merchant := readCellText row[0]?
        let dateStr := readCellText row[1]?
        let category := readCellText row[2]?
        let item := readCellText row[3]?
        let m := if merchant ≠ "" then merchant else curM
        let d := if dateStr ≠ "" then dateStr else curD
        let cost := readCellCost row[4]?
        (if m ≠ "" ∧ d ≠ "" ∧ item ≠ "" then [⟨m, d, category, item, cost⟩] else [])
          ++ readTransactionsAux rest m d

/-- Models `GET` over the data rows (the route reads range `Transactions!A2:E`,
so the header row is not part of the input). -/
def readTransactions (rows : List (List SheetVal)) : List TransactionRow :=
  readTransactionsAux rows "" ""

/-! ### Reconciliation & Append Engine (POST append route, part_005) -/

/-- Models `` `${item.merchant}|${item.date}` `` -/
def itemKey (it : TransactionItem) : String :=
  it.merchant ++ "|" ++ it.date

/-- Models `transactionGroups.get(key)!.push(item)` with first-seen key order
(JavaScript `Map` iteration order is insertion order). -/
def pushGroup : List (String × List TransactionItem) → String → TransactionItem →
    List (String × List TransactionItem)
  | [], k, it => [(k, [it])]
  | (k', its) :: rest, k, it =>
      if k' = k then (k', its ++ [it]) :: rest
      else (k', its) :: pushGroup rest k it

/-- Lines 63–71: group items by `merchant|date`. -/
def groupItems (items : List TransactionItem) : List (String × List TransactionItem) :=
  items.foldl (fun gs it => pushGroup gs (itemKey it) it) []

/-- Models `String(row[i] || "").trim()` (duplicate-detection phase). -/
def dupCellText (c : Option SheetVal) : String :=
  match c with
  | none => ""
  | some (.str s) => jsTrim s
  | some (.num q) => if q = 0 then "" else jsTrim (numText q)

/-- Models `parseFloat(String(row[4] || "0").trim().replace(/[$,]/g, "")) || 0`;
numeric cells read back as their value as in `readCellCost`. -/
def dupCellCost (c : Option SheetVal) : ℚ :=
  match c with
  | some (.num q) => q
  | some (.str s) => parseMoney (jsTrim (if s = "" then "0" else s))
  | none => parseMoney "0"

/-- Models `` `${currentMerchant.toLowerCase()}|${currentDate}` `` -/
def txnKey (merchant date : String) : String :=
  jsToLower merchant ++ "|" ++ date

/-- Models `existingTransactions.set(key, value)` on an insertion-ordered association
list (JavaScript `Map.set` overwrites in place, keeps first-insertion order). -/
def setAssoc : List (String × ℚ) → String → ℚ → List (String × ℚ)
  | [], k, v => [(k, v)]
  | (k', v') :: rest, k, v =>
      if k' = k then (k, v) :: rest else (k', v') :: setAssoc rest k v

/-- Models `Map.get` on the association list. -/
def lookupAssoc : List (String × ℚ) → String → Option ℚ
  | [], _ => none
  | (k', v) :: rest, k => if k' = k then some v else lookupAssoc rest k

/-- Lines 87–122: reconstruct existing transactions from the raw rows
(merged-cell aware: a non-empty merchant cell starts a new transaction, other
rows extend the current one), accumulating into `existingTransactions`. -/
def existingTransAux : List (List SheetVal) → String → String → ℚ →
    List (String × ℚ) → List (String × ℚ)
  | [], curM, curD, curTotal, acc =>
      if curM ≠ "" ∧ curD ≠ "" then setAssoc acc (txnKey curM curD) curTotal else acc
  | row :: rest, curM, curD, curTotal, acc =>
      if row.length < 5 then existingTransAux rest curM curD curTotal acc
      else
        let merchant := dupCellText row[0]?
        let dateStr := dupCellText row[1]?
        let cost := dupCellCost row[4]?
        if merchant ≠ "" then
          let acc' := if curM ≠ "" ∧ curD ≠ "" then setAssoc acc (txnKey curM curD) curTotal
                      else acc
          existingTransAux rest merchant dateStr cost acc'
        else
          existingTransAux rest curM curD (curTotal + cost) acc

/-- The existing-transaction map over the data rows (the source iterates its
`A:E` read from index 1, skipping the header; callers pass the data rows). -/
def existingTransactions (dataRows : List (List SheetVal)) : List (String × ℚ) :=
  existingTransAux dataRows "" "" 0 []

end VibeBudget

namespace VibeBudget

/-! ### Duplicate detection (lines 124–169) -/

/-- Lines 141–156: normalize the stored date string for comparison
(`YYYY-MM-DD` kept; `M/D/YYYY` converted; anything else left as is —
no operation in the `try` block can throw). -/
def normalizeExistingDate (d : String) : String :=
  if isIsoDate d then d
  else if isMdyDate d then
    match jsSplit '/' d with
    | [month, day, year] => year ++ "-" ++ padStart2 month ++ "-" ++ padStart2 day
    | _ => d
  else d

/-- Lines 134–156: does a stored entry's key match the new group's merchant
and date?  The key is split at `|`; the first part is compared with the
lowercased new merchant and the second, date-normalized, with the new date. -/
def dupEntryMatch (existingKey newMerchant newDate : String) : Bool :=
  let parts := jsSplit '|' existingKey
  let existingMerchant := parts.getD 0 ""
  let existingDateStr := parts.getD 1 ""
  existingMerchant = jsToLower newMerchant ∧
    normalizeExistingDate existingDateStr = newDate

/-- Lines 158–167: a matching entry is flagged as a duplicate when
`abs(newTotal - existingTotal) <= max(newTotal * 0.05, 1)`. -/
def dupEntryFlag (existingKey : String) (existingTotal : ℚ)
    (newMerchant newDate : String) (newTotal : ℚ) : Bool :=
  dupEntryMatch existingKey newMerchant newDate &&
    decide (|newTotal - existingTotal| ≤ max (newTotal * (5 / 100)) 1)

/-- The inner loop over `existingTransactions.entries()`. -/
def groupIsDuplicate (existing : List (String × ℚ))
    (newMerchant newDate : String) (newTotal : ℚ) : Bool :=
  existing.any fun e => dupEntryFlag e.1 e.2 newMerchant newDate newTotal

/-- Models `groupItems.reduce((sum, item) => sum + item.cost, 0)` -/
def groupTotal (its : List TransactionItem) : ℚ :=
  (its.map (·.cost)).sum

/-- Placeholder line item (groups produced by `groupItems` are never empty). -/
def dummyItem : TransactionItem := ⟨"", "", "", "", 0⟩

/-- Lines 124–169: the outer loop over new transaction groups; the handler
aborts on the first duplicate found. -/
def anyDuplicate (existing : List (String × ℚ))
    (groups : List (String × List TransactionItem)) : Bool :=
  groups.any fun g =>
    let firstItem := g.2.headD dummyItem
    groupIsDuplicate existing firstItem.merchant firstItem.date (groupTotal g.2)

/-! ### Row construction and merges (lines 171–264) -/

/-- Lines 188–191: convert `YYYY-MM-DD` to `M/D/YYYY` via
`` `${parseInt(m)}/${parseInt(d)}/${y}` `` when the dash split has three
parts, otherwise keep the string. -/
def formatDateMDY (date : String) : String :=
  let parts := jsSplit '-' date
  if parts.length = 3 then
    jsParseIntStr (parts.getD 1 "") ++ "/" ++ jsParseIntStr (parts.getD 2 "") ++ "/" ++
      parts.getD 0 ""
  else date

/-- The first row of a group carries merchant and formatted date. -/
def firstRowOf (it : TransactionItem) : List SheetVal :=
  [.str it.merchant, .str (formatDateMDY it.date), .str it.category, .str it.item,
   .num it.cost]

/-- Later rows of a group leave merchant and date blank. -/
def contRowOf (it : TransactionItem) : List SheetVal :=
  [.str "", .str "", .str it.category, .str it.item, .num it.cost]

/-- Lines 184–200: rows constructed for one group (`item === firstItem` is
reference equality on objects freshly parsed from JSON, i.e. positional). -/
def rowsOfGroup : List TransactionItem → List (List SheetVal)
  | [] => []
  | firstItem :: rest => firstRowOf firstItem :: rest.map contRowOf

/-- Lines 176–211: build all rows and the merge row-ranges, threading the
running row offset (`transactionStartRow = startRowIndex + currentRowOffset`). -/
def buildRowsAndMerges (startRowIndex : Nat) :
    List (String × List TransactionItem) → List (List SheetVal) × List (Nat × Nat)
  | [] => ([], [])
  | (_, its) :: restGroups =>
      let built := buildRowsAndMerges (startRowIndex + its.length) restGroups
      (rowsOfGroup its ++ built.1,
       (if 1 < its.length then [(startRowIndex, startRowIndex + its.length - 1)] else [])
         ++ built.2)

/-- One `mergeCells` request (ranges 0-indexed, end-exclusive). -/
structure MergeReq where
  sheetId : Int
  startRowIndex : Nat
  endRowIndex : Nat
  startColumnIndex : Nat
  endColumnIndex : Nat
deriving DecidableEq, Repr

/-- Lines 227–254: for each recorded range, one merge over the Merchant
column (A) and one over the Date column (B), rows end-exclusive. -/
def mergeRequestsOf (sid : Int) (ranges : List (Nat × Nat)) : List MergeReq :=
  ranges.flatMap fun r =>
    [⟨sid, r.1, r.2 + 1, 0, 1⟩, ⟨sid, r.1, r.2 + 1, 1, 2⟩]

/-- Outcome of the append handler. -/
inductive AppendOutcome where
  | inputError
  | duplicateDetected
  | appendFailed
  | success (rowsAdded : Nat) (transactionsAdded : Nat)
deriving DecidableEq, Repr

/-- The append `POST` handler (part_005) after request validation, as a pure
function of the current sheet contents (range `Transactions!A:E`, header
included).  `sheetId` models the result of `getSheetId` and `mergeOK` whether
the merge `batchUpdate` call succeeds; a failed merge call throws after the
row write, landing in the catch-all (500), with no merges applied. -/
def appendPOST (sheetId : Option Int) (mergeOK : Bool)
    (store : List (List SheetVal)) (items : List TransactionItem) :
    AppendOutcome × List (List SheetVal) × List MergeReq :=
  if items.isEmpty then (.inputError, store, [])
  else
    let groups := groupItems items
    let startRowIndex := store.length
    let existing := existingTransactions (store.drop 1)
    if anyDuplicate existing groups then (.duplicateDetected, store, [])
    else
      let built := buildRowsAndMerges startRowIndex groups
      if built.1.isEmpty then (.success built.1.length groups.length, store, [])
      else
        let newStore := store ++ built.1
        match built.2, sheetId with
        | [], _ => (.success built.1.length groups.length, newStore, [])
        | _ :: _, some sid =>
            if mergeOK then
              (.success built.1.length groups.length, newStore, mergeRequestsOf sid built.2)
            else (.appendFailed, newStore, [])
        | _ :: _, none => (.success built.1.length groups.length, newStore, [])

end VibeBudget

namespace VibeBudget

/-! ### Extraction Engine (process route, structured-output variant) -/

/-- A JSON leaf value as it appears in a provider-response item field. -/
inductive JVal where
  | str (s : String)
  | num (q : ℚ)
deriving DecidableEq, Repr

/-- JavaScript falsiness of a possibly-absent field (`undefined`, `""`, `0`). -/
def jvalFalsy : Option JVal → Bool
  | none => true
  | some (.str s) => s = ""
  | some (.num q) => q = 0

/-- Models `String(v)` -/
def jvalText : JVal → String
  | .str s => s
  | .num q => numText q

/-- An item of the parsed provider response `{ items: [...] }`, fields
possibly missing. -/
structure RawItem where
  merchant : Option JVal
  date : Option JVal
  category : Option JVal
  item : Option JVal
  cost : Option JVal
deriving DecidableEq, Repr

/-- The zod `TransactionItemSchema`: merchant, category, item strings; date a
string matching `/^\d{4}-\d{2}-\d{2}$/`; cost a number. -/
def zodItemOK (it : RawItem) : Bool :=
  (match it.merchant with | some (.str _) => true | _ => false) &&
  (match it.date with | some (.str s) => isIsoDate s | _ => false) &&
  (match it.category with | some (.str _) => true | _ => false) &&
  (match it.item with | some (.str _) => true | _ => false) &&
  (match it.cost with | some (.num _) => true | _ => false)

/-- Models `TransactionResponseSchema.parse` succeeds iff every item conforms. -/
def zodResponseOK (items : List RawItem) : Bool :=
  items.all zodItemOK

/-- The normalization map (append/route.ts lines 383–398): drop an item whose
merchant or item description is falsy or whose cost is absent; otherwise trim
string fields, default the category, default a falsy date to `today`, and
coerce the cost to a number (string parse defaulting to 0). -/
def normalizeRawItem (today : String) (it : RawItem) : Option TransactionItem :=
  if jvalFalsy it.merchant || jvalFalsy it.item || it.cost = none then none
  else some
    { merchant := jsTrim (jvalText (it.merchant.getD (.str "")))
      date := if jvalFalsy it.date then today else jvalText (it.date.getD (.str ""))
      category := jsTrim (jvalText (if jvalFalsy it.category then .str "Other"
                                    else it.category.getD (.str "")))
      item := jsTrim (jvalText (it.item.getD (.str "")))
      cost := match it.cost with
              | some (.num q) => q
              | some (.str s) => (jsParseFloat s).getD 0
              | none => 0 }

/-- Outcome of the extraction handler after the provider call. -/
inductive ExtractOutcome where
  | extractionFailed
  | noReceiptDetected
  | success (items : List TransactionItem)
deriving DecidableEq, Repr

/-- The extraction handler from the point where the provider's content has
been `JSON.parse`d into the `items` array of a `{ items: [...] }` payload
(lines 346–405): zod validation (failure → the uniform "OpenAI failed to
respond" response), then normalization, then "No receipt detected" when no
item survives. -/
def extractPOST (today : String) (items : List RawItem) : ExtractOutcome :=
  if !zodResponseOK items then .extractionFailed
  else
    let validated := items.filterMap (normalizeRawItem today)
    if validated.isEmpty then .noReceiptDetected
    else .success validated

/-! ### Schema Formatter (part_011, formatTransactionsSheet) -/

/-- The `userEnteredValue` layer of a sheet: cell contents by (row, column),
0-indexed. -/
def Grid : Type := Nat → Nat → Option SheetVal

/-- One request of the formatter's `batchUpdate`.  Only `updateCells` lists
`userEnteredValue` in its `fields` mask; every other request touches
formatting properties only. -/
inductive FormatRequest where
  | updateCellsValues (startRow endRow startCol endCol : Nat) (vals : List SheetVal)
  | repeatCellFormat (startRow : Nat) (endRow : Option Nat) (startCol endCol : Nat)
  | setFrozenRows (n : Nat)
  | setColumnWidth (startCol endCol width : Nat)
  | updateBorders (startRow endRow startCol endCol : Nat)
deriving DecidableEq, Repr

/-- The fixed header values written into `A1:E1`. -/
def transactionsHeaderValues : List SheetVal :=
  [.str "Merchant", .str "Date", .str "Category", .str "Item", .str "Cost"]

/-- The request list of `formatTransactionsSheet` (part_011 lines 163–452),
in source order. -/
def formatTransactionsRequests : List FormatRequest :=
  [ .updateCellsValues 0 1 0 5 transactionsHeaderValues
  , .repeatCellFormat 0 (some 1) 0 5
  , .setFrozenRows 1
  , .repeatCellFormat 1 none 0 1
  , .repeatCellFormat 1 none 1 2
  , .repeatCellFormat 1 none 2 3
  , .repeatCellFormat 1 none 3 4
  , .repeatCellFormat 1 none 4 5
  , .setColumnWidth 0 1 140
  , .setColumnWidth 1 2 140
  , .setColumnWidth 2 3 160
  , .setColumnWidth 3 4 360
  , .setColumnWidth 4 5 110
  , .updateBorders 0 2000 0 5 ]

/-- Effect of one request on cell values: `updateCells` (fields
`userEnteredValue`) writes the listed values row-major over its range; all
other requests leave values untouched. -/
def applyValueEffect (g : Grid) : FormatRequest → Grid
  | .updateCellsValues r0 r1 c0 c1 vals =>
      fun r c =>
        if r0 ≤ r ∧ r < r1 ∧ c0 ≤ c ∧ c < c1 then vals[(r - r0) * (c1 - c0) + (c - c0)]?
        else g r c
  | _ => g

/-- The formatter's effect on the value layer. -/
def formatTransactionsSheet (g : Grid) : Grid :=
  formatTransactionsRequests.foldl applyValueEffect g

end VibeBudget

namespace VibeBudget

/-! ### Helper notions used in the claim statements -/

/-- The duplicate-detection key of a parsed reader row. -/
def rowKey (t : TransactionRow) : String :=
  txnKey t.merchant t.date

/-- Does a reader row belong to key `k`? -/
def rowKeyMatches (k : String) (t : TransactionRow) : Bool :=
  rowKey t = k

/-- Total cost the reader attributes to key `k`. -/
def keyCostSum (k : String) (ts : List TransactionRow) : ℚ :=
  ((ts.filter (rowKeyMatches k)).map (·.cost)).sum

/-- The keys the duplicate-detection fold flushes, in flush order and with
multiplicity (same recursion structure as `existingTransAux`, without the
map). -/
def segmentKeysAux : List (List SheetVal) → String → String → List String
  | [], curM, curD => if curM ≠ "" ∧ curD ≠ "" then [txnKey curM curD] else []
  | row :: rest, curM, curD =>
      if row.length < 5 then segmentKeysAux rest curM curD
      else
        let merchant := dupCellText row[0]?
        let dateStr := dupCellText row[1]?
        if merchant ≠ "" then
          (if curM ≠ "" ∧ curD ≠ "" then [txnKey curM curD] else [])
            ++ segmentKeysAux rest merchant dateStr
        else segmentKeysAux rest curM curD

/-- Keys of all transaction segments of the data rows. -/
def segmentKeys (rows : List (List SheetVal)) : List String :=
  segmentKeysAux rows "" ""

/-- A text-only cell. -/
def isStrCell : SheetVal → Bool
  | .str _ => true
  | .num _ => false

/-- A row in the canonical shape the append path writes: five text cells, a
non-empty item description, merchant and date either both present
(transaction-starting row) or both blank (continuation row). -/
abbrev RowCanonical (row : List SheetVal) : Prop :=
  row.length = 5 ∧ row.all isStrCell = true ∧
  readCellText row[3]? ≠ "" ∧
  (readCellText row[0]? ≠ "" → readCellText row[1]? ≠ "") ∧
  (readCellText row[0]? = "" → readCellText row[1]? = "")

/-- Canonical stored data rows: every row canonical and the first row (if
any) starting a transaction. -/
abbrev CanonicalRows (rows : List (List SheetVal)) : Prop :=
  (∀ row ∈ rows, RowCanonical row) ∧
  (∀ row ∈ rows.take 1, readCellText row[0]? ≠ "")

/-- Distinct keys in first-seen order. -/
def firstSeenKeys (ks : List String) : List String :=
  ks.foldl (fun acc k => if k ∈ acc then acc else acc ++ [k]) []

/-- Find a group by key in the grouping association list. -/
def assocFind : List (String × List TransactionItem) → String → Option (List TransactionItem)
  | [], _ => none
  | (k', l) :: rest, k => if k' = k then some l else assocFind rest k

/-- Each group paired with the sheet row index its rows start at. -/
def groupOffsets : Nat → List (String × List TransactionItem) →
    List (Nat × (String × List TransactionItem))
  | _, [] => []
  | n, g :: rest => (n, g) :: groupOffsets (n + g.2.length) rest

/-- What the reader reconstructs for one appended group: every row carries the
group's merchant and (format-normalized) date, and its own category, item and
cost. -/
def groupEmit (g : String × List TransactionItem) : List TransactionRow :=
  match g.2 with
  | [] => []
  | firstItem :: _ =>
      g.2.map fun it =>
        ⟨firstItem.merchant, formatDateMDY firstItem.date, it.category, it.item, it.cost⟩

/-- A line item as the Extraction Engine produces them: trimmed non-empty
merchant and item description, trimmed category, ISO date. -/
abbrev goodItem (it : TransactionItem) : Prop :=
  jsTrim it.merchant = it.merchant ∧ it.merchant ≠ "" ∧
  jsTrim it.category = it.category ∧
  jsTrim it.item = it.item ∧ it.item ≠ "" ∧
  isIsoDate it.date = true

/-! ### Concrete fixtures for witnesses and counterexamples -/

/-- The header row of the Transactions sheet. -/
def headerRow : List SheetVal :=
  [.str "Merchant", .str "Date", .str "Category", .str "Item", .str "Cost"]

/-- A store holding one transaction: Acme, 2024-03-01, total 100. -/
def storeAcme : List (List SheetVal) :=
  [headerRow, [.str "Acme", .str "2024-03-01", .str "Groceries", .str "Stuff", .str "100"]]

/-- A store holding one transaction: Corner Shop, 2024-03-01, total 10. -/
def storeTen : List (List SheetVal) :=
  [headerRow,
   [.str "Corner Shop", .str "2024-03-01", .str "Groceries", .str "Stuff", .str "10"]]

/-- A single-item receipt for Acme / 2024-03-01 with the given cost. -/
def acmeItem (c : ℚ) : TransactionItem :=
  ⟨"Acme", "2024-03-01", "Groceries", "Stuff", c⟩

/-- A single-item receipt for Corner Shop / 2024-03-01 with the given cost. -/
def shopItem (c : ℚ) : TransactionItem :=
  ⟨"Corner Shop", "2024-03-01", "Groceries", "Stuff", c⟩

/-- Two items forming one two-row transaction group. -/
def cxPairItems : List TransactionItem :=
  [⟨"Shop", "2024-05-01", "Food", "Bread", 3⟩, ⟨"Shop", "2024-05-01", "Food", "Milk", 4⟩]

/-- An item whose merchant contains the `|` separator. -/
def cxPipeItem1 : TransactionItem := ⟨"A|B", "C", "cat1", "x", 1⟩

/-- An item whose date contains the `|` separator. -/
def cxPipeItem2 : TransactionItem := ⟨"A", "B|C", "cat2", "y", 2⟩

/-- Stored rows whose continuation row has an empty item description: the
duplicate-detection fold counts its cost, the reader does not emit it. -/
def cxBadRows : List (List SheetVal) :=
  [[.str "A", .str "d1", .str "cat", .str "item1", .str "5"],
   [.str "", .str "", .str "cat", .str "", .str "3"]]

/-- Canonical stored rows: a two-row transaction and a one-row transaction. -/
def c5GoodRows : List (List SheetVal) :=
  [[.str "Acme", .str "3/1/2024", .str "Groceries", .str "Apples", .str "2"],
   [.str "", .str "", .str "Groceries", .str "Bread", .str "3"],
   [.str "Cafe", .str "3/2/2024", .str "Dining", .str "Coffee", .str "4"]]

/-- Items with a shared (merchant, date) group of size two. -/
def c3Items : List TransactionItem :=
  [⟨"Acme", "2024-03-01", "Groceries", "Apples", 2⟩,
   ⟨"Acme", "2024-03-01", "Groceries", "Bread", 3⟩,
   ⟨"Cafe", "2024-03-02", "Dining", "Coffee", 4⟩]

/-- A provider item with no cost field. -/
def cxNoCostItem : RawItem :=
  ⟨some (.str "Acme"), some (.str "2024-03-01"), some (.str "Food"),
   some (.str "Apples"), none⟩

/-- A schema-valid provider item whose merchant is the empty string. -/
def cxZodEmptyMerchant : RawItem :=
  ⟨some (.str ""), some (.str "2024-03-01"), some (.str "Food"),
   some (.str "Apples"), some (.num 3)⟩

/-- A provider item with an empty merchant but a present cost. -/
def cxEmptyMerchantItem : RawItem :=
  ⟨some (.str ""), some (.str "2024-03-01"), some (.str "Food"),
   some (.str "Apples"), some (.num 5)⟩

/-- A provider item with cost exactly 0. -/
def cxZeroCostItem : RawItem :=
  ⟨some (.str "Acme"), some (.str "2024-03-01"), some (.str "Food"),
   some (.str "Apples"), some (.num 0)⟩

/-- A provider item whose cost is an unparsable string. -/
def cxBadCostStrItem : RawItem :=
  ⟨some (.str "Acme"), some (.str "2024-03-01"), some (.str "Food"),
   some (.str "Apples"), some (.str "abc")⟩

/-- A sample grid with one data cell. -/
def sampleGrid : Grid :=
  fun r c => if r = 3 ∧ c = 2 then some (.str "keep") else none

end VibeBudget

namespace VibeBudget

/-! ### Basic lemmas -/

theorem dropWhile_all_false {α : Type} (p : α → Bool) :
    ∀ l : List α, (∀ c ∈ l, p c = false) → l.dropWhile p = l
  | [], _ => rfl
  | c :: rest, h => by
      have hc := h c (List.mem_cons_self c rest)
      simp [List.dropWhile_cons, hc]

theorem jsTrim_of_no_ws (s : String) (h : ∀ c ∈ s.data, isJsWhitespace c = false) :
    jsTrim s = s := by
  have hr : ∀ c ∈ s.data.reverse, isJsWhitespace c = false := by
    intro c hc
    exact h c (List.mem_reverse.mp hc)
  unfold jsTrim
  rw [dropWhile_all_false _ _ h, dropWhile_all_false _ _ hr, List.reverse_reverse]

theorem parseMoney_empty : parseMoney "" = 0 := rfl

theorem parseMoney_zero : parseMoney "0" = 0 := by
  have h : parseMoney "0" = ((digitsVal ['0'] : ℕ) : ℚ) := rfl
  have hd : digitsVal ['0'] = 0 := by decide
  rw [h, hd]
  norm_num

theorem parseMoney_100 : parseMoney "100" = 100 := by
  have h : parseMoney "100" = ((digitsVal ['1', '0', '0'] : ℕ) : ℚ) := rfl
  have hd : digitsVal ['1', '0', '0'] = 100 := by decide
  rw [h, hd]
  norm_num

theorem parseMoney_10 : parseMoney "10" = 10 := by
  have h : parseMoney "10" = ((digitsVal ['1', '0'] : ℕ) : ℚ) := rfl
  have hd : digitsVal ['1', '0'] = 10 := by decide
  rw [h, hd]
  norm_num

theorem parseMoney_2 : parseMoney "2" = 2 := by
  have h : parseMoney "2" = ((digitsVal ['2'] : ℕ) : ℚ) := rfl
  have hd : digitsVal ['2'] = 2 := by decide
  rw [h, hd]
  norm_num

theorem parseMoney_3 : parseMoney "3" = 3 := by
  have h : parseMoney "3" = ((digitsVal ['3'] : ℕ) : ℚ) := rfl
  have hd : digitsVal ['3'] = 3 := by decide
  rw [h, hd]
  norm_num

theorem parseMoney_4 : parseMoney "4" = 4 := by
  have h : parseMoney "4" = ((digitsVal ['4'] : ℕ) : ℚ) := rfl
  have hd : digitsVal ['4'] = 4 := by decide
  rw [h, hd]
  norm_num

theorem parseMoney_5 : parseMoney "5" = 5 := by
  have h : parseMoney "5" = ((digitsVal ['5'] : ℕ) : ℚ) := rfl
  have hd : digitsVal ['5'] = 5 := by decide
  rw [h, hd]
  norm_num

theorem parseMoney_currency_example : parseMoney "$1,234.56" = 123456 / 100 := by
  have h : parseMoney "$1,234.56" =
      ((digitsVal ['1', '2', '3', '4'] : ℕ) : ℚ) +
        ((digitsVal ['5', '6'] : ℕ) : ℚ) / (10 : ℚ) ^ 2 := rfl
  have hd1 : digitsVal ['1', '2', '3', '4'] = 1234 := by decide
  have hd2 : digitsVal ['5', '6'] = 56 := by decide
  rw [h, hd1, hd2]
  norm_num

theorem option_or_assoc {α : Type} (a b c : Option α) :
    (a.or b).or c = a.or (b.or c) := by
  cases a <;> rfl

theorem lookupAssoc_setAssoc (m : List (String × ℚ)) (k : String) (v : ℚ) (x : String) :
    lookupAssoc (setAssoc m k v) x = if k = x then some v else lookupAssoc m x := by
  induction m with
  | nil => simp [setAssoc, lookupAssoc]
  | cons p rest ih =>
      obtain ⟨k1, v1⟩ := p
      by_cases h1 : k1 = k
      · subst h1
        simp only [setAssoc, if_pos rfl, lookupAssoc]
        split <;> simp_all [lookupAssoc]
      · simp only [setAssoc, if_neg h1, lookupAssoc]
        by_cases h2 : k1 = x
        · subst h2
          have : ¬ k = k1 := fun hh => h1 hh.symm
          simp [lookupAssoc, this]
        · simp [lookupAssoc, h2, ih]

end VibeBudget

namespace VibeBudget

theorem dupCellCost_eq_readCellCost (c : Option SheetVal) :
    dupCellCost c = readCellCost c := by
  match c with
  | none => rfl
  | some (.num q) => rfl
  | some (.str s) =>
      by_cases hs : s = ""
      · subst hs
        rfl
      · simp only [dupCellCost, readCellCost, if_neg hs]
        by_cases ht : jsTrim s = ""
        · rw [ht, if_pos rfl, parseMoney_empty, parseMoney_zero]
        · rw [if_neg ht]

theorem dupCellText_eq_readCellText (c : SheetVal) (h : isStrCell c = true) :
    dupCellText (some c) = readCellText (some c) := by
  match c with
  | .str s => rfl
  | .num q => simp [isStrCell] at h

theorem existingTransAux_acc (rows : List (List SheetVal)) :
    ∀ (curM curD : String) (tot : ℚ) (acc : List (String × ℚ)) (k : String),
      lookupAssoc (existingTransAux rows curM curD tot acc) k =
        (lookupAssoc (existingTransAux rows curM curD tot []) k).or (lookupAssoc acc k) := by
  induction rows with
  | nil =>
      intro curM curD tot acc k
      simp only [existingTransAux]
      split
      · rw [lookupAssoc_setAssoc, lookupAssoc_setAssoc]
        split <;> simp [lookupAssoc, Option.or]
      · simp [lookupAssoc, Option.or]
  | cons row rest ih =>
      intro curM curD tot acc k
      simp only [existingTransAux]
      split
      · exact ih curM curD tot acc k
      · split
        · split
          · rw [ih, ih _ _ _ (setAssoc [] _ _) k, option_or_assoc]
            congr 1
            rw [lookupAssoc_setAssoc, lookupAssoc_setAssoc]
            split <;> simp [lookupAssoc, Option.or]
          · exact ih _ _ _ acc k
        · exact ih curM curD _ acc k

theorem txnKey_mem_segmentKeysAux (rows : List (List SheetVal)) :
    ∀ curM curD, curM ≠ "" → curD ≠ "" →
      txnKey curM curD ∈ segmentKeysAux rows curM curD := by
  induction rows with
  | nil =>
      intro m d hm hd
      simp [segmentKeysAux, hm, hd]
  | cons row rest ih =>
      intro m d hm hd
      simp only [segmentKeysAux]
      split
      · exact ih m d hm hd
      · split
        · rw [if_pos ⟨hm, hd⟩]
          exact List.mem_append_left _ (List.mem_cons_self _ _)
        · exact ih m d hm hd

theorem keyCostSum_nil (k : String) : keyCostSum k [] = 0 := rfl

theorem keyCostSum_cons (k : String) (t : TransactionRow) (ts : List TransactionRow) :
    keyCostSum k (t :: ts) = (if rowKeyMatches k t then t.cost else 0) + keyCostSum k ts := by
  simp only [keyCostSum, List.filter_cons]
  split <;> simp [keyCostSum]

end VibeBudget

namespace VibeBudget

theorem canonical_dupText (row : List SheetVal) (h5 : row.length = 5)
    (hstr : row.all isStrCell = true) (i : Nat) (hi : i < 5) :
    dupCellText row[i]? = readCellText row[i]? := by
  have hlt : i < row.length := by omega
  rw [List.getElem?_eq_getElem hlt]
  exact dupCellText_eq_readCellText _ (List.all_eq_true.mp hstr _ (List.getElem_mem hlt))

theorem keyCostSum_eq_zero (k : String) (ts : List TransactionRow)
    (h : ∀ t ∈ ts, rowKeyMatches k t = false) : keyCostSum k ts = 0 := by
  have : ts.filter (rowKeyMatches k) = [] := List.filter_eq_nil_iff.mpr (by
    intro t ht
    simp [h t ht])
  simp [keyCostSum, this]

theorem any_matches_false (k : String) (ts : List TransactionRow)
    (h : ∀ t ∈ ts, rowKeyMatches k t = false) : ts.any (rowKeyMatches k) = false := by
  simp only [List.any_eq_false]
  intro t ht
  simp [h t ht]

end VibeBudget

namespace VibeBudget

theorem reader_rowKey_mem (rows : List (List SheetVal)) :
    ∀ curM curD, curM ≠ "" → curD ≠ "" → (∀ row ∈ rows, RowCanonical row) →
      ∀ t ∈ readTransactionsAux rows curM curD,
        rowKey t ∈ segmentKeysAux rows curM curD := by
  induction rows with
  | nil =>
      intro m d _ _ _ t ht
      simp [readTransactionsAux] at ht
  | cons row rest ih =>
      intro m d hm hd hcan t ht
      obtain ⟨h5, hstr, hitem, hsd, hsd2⟩ := hcan row (List.mem_cons_self _ _)
      have hcr : ∀ r ∈ rest, RowCanonical r := fun r hr => hcan r (List.mem_cons_of_mem _ hr)
      have hlen0 : ¬ row.length = 0 := by omega
      have hlen5 : ¬ row.length < 5 := by omega
      have e0 := canonical_dupText row h5 hstr 0 (by norm_num)
      have e1 := canonical_dupText row h5 hstr 1 (by norm_num)
      simp only [readTransactionsAux, if_neg hlen0] at ht
      simp only [segmentKeysAux, if_neg hlen5, e0, e1]
      by_cases hmer : readCellText row[0]? ≠ ""
      · have hdate : readCellText row[1]? ≠ "" := hsd hmer
        rw [if_pos hmer]
        rw [if_pos hmer, if_pos hdate] at ht
        rw [if_pos ⟨hm, hd⟩]
        rcases List.mem_append.mp ht with hhd | htl
        · have : t = ⟨readCellText row[0]?, readCellText row[1]?, readCellText row[2]?,
              readCellText row[3]?, readCellCost row[4]?⟩ := by
            rw [if_pos ⟨hmer, hdate, hitem⟩] at hhd
            simpa using hhd
          subst this
          exact List.mem_append_right _ (txnKey_mem_segmentKeysAux rest _ _ hmer hdate)
        · exact List.mem_append_right _ (ih _ _ hmer hdate hcr t htl)
      · have hm0 : readCellText row[0]? = "" := not_ne_iff.mp hmer
        have hd0 : readCellText row[1]? = "" := hsd2 hm0
        rw [if_neg hmer]
        rw [if_neg hmer, hd0] at ht
        simp only [ne_eq, not_true_eq_false, if_false] at ht
        rcases List.mem_append.mp ht with hhd | htl
        · have : t = ⟨m, d, readCellText row[2]?, readCellText row[3]?,
              readCellCost row[4]?⟩ := by
            rw [if_pos ⟨hm, hd, hitem⟩] at hhd
            simpa using hhd
          subst this
          exact txnKey_mem_segmentKeysAux rest m d hm hd
        · exact ih m d hm hd hcr t htl

end VibeBudget

namespace VibeBudget

theorem existingTransAux_lookup_spec (rows : List (List SheetVal)) :
    ∀ curM curD (tot : ℚ), curM ≠ "" → curD ≠ "" →
      (∀ row ∈ rows, RowCanonical row) →
      (segmentKeysAux rows curM curD).Nodup →
      ∀ k, lookupAssoc (existingTransAux rows curM curD tot []) k =
        if k = txnKey curM curD then
          some (tot + keyCostSum k (readTransactionsAux rows curM curD))
        else if (readTransactionsAux rows curM curD).any (rowKeyMatches k) then
          some (keyCostSum k (readTransactionsAux rows curM curD))
        else none := by
  induction rows with
  | nil =>
      intro m d tot hm hd _ _ k
      simp only [existingTransAux, readTransactionsAux]
      rw [if_pos (And.intro hm hd), lookupAssoc_setAssoc]
      by_cases hk : k = txnKey m d
      · rw [if_pos hk.symm, if_pos hk, keyCostSum_nil, add_zero]
      · rw [if_neg (fun h => hk h.symm), if_neg hk]
        simp [lookupAssoc]
  | cons row rest ih =>
      intro m d tot hm hd hcan hnd k
      obtain ⟨h5, hstr, hitem, hsd, hsd2⟩ := hcan row (List.mem_cons_self _ _)
      have hcr : ∀ r ∈ rest, RowCanonical r := fun r hr => hcan r (List.mem_cons_of_mem _ hr)
      have hlen0 : ¬ row.length = 0 := by omega
      have hlen5 : ¬ row.length < 5 := by omega
      have e0 := canonical_dupText row h5 hstr 0 (by norm_num)
      have e1 := canonical_dupText row h5 hstr 1 (by norm_num)
      have ec := dupCellCost_eq_readCellCost row[4]?
      simp only [existingTransAux, readTransactionsAux, if_neg hlen0, if_neg hlen5, e0, e1, ec]
      simp only [segmentKeysAux, if_neg hlen5, e0, e1] at hnd
      by_cases hmer : readCellText row[0]? ≠ ""
      · have hdate : readCellText row[1]? ≠ "" := hsd hmer
        simp only [if_pos hmer, if_pos hdate, if_pos (And.intro hm hd),
          if_pos (And.intro hmer (And.intro hdate hitem)), List.singleton_append]
        simp only [if_pos hmer, if_pos (And.intro hm hd), List.singleton_append] at hnd
        have hknotin := (List.nodup_cons.mp hnd).1
        have hndtail := (List.nodup_cons.mp hnd).2
        have hMDne : txnKey (readCellText row[0]?) (readCellText row[1]?) ≠ txnKey m d :=
          fun h => hknotin (h ▸ txnKey_mem_segmentKeysAux rest _ _ hmer hdate)
        have hrestkeys : ∀ t ∈ readTransactionsAux rest (readCellText row[0]?)
            (readCellText row[1]?), rowKey t ≠ txnKey m d := by
          intro t ht h
          exact hknotin (h ▸ reader_rowKey_mem rest _ _ hmer hdate hcr t ht)
        rw [existingTransAux_acc]
        rw [ih _ _ _ hmer hdate hcr hndtail k]
        by_cases hk : k = txnKey m d
        · have hmatchhd : rowKeyMatches k
              (⟨readCellText row[0]?, readCellText row[1]?, readCellText row[2]?,
                readCellText row[3]?, readCellCost row[4]?⟩ : TransactionRow) = false := by
            simp only [rowKeyMatches, rowKey, decide_eq_false_iff_not]
            exact fun h => hMDne (h.trans hk)
          have hnomatch : ∀ t ∈ readTransactionsAux rest (readCellText row[0]?)
              (readCellText row[1]?), rowKeyMatches k t = false := by
            intro t ht
            simp only [rowKeyMatches, rowKey, decide_eq_false_iff_not]
            exact fun h => hrestkeys t ht (h.trans hk)
          rw [if_neg (fun h : k = _ => hMDne (hk ▸ h.symm)), if_pos hk]
          rw [any_matches_false _ _ hnomatch]
          simp only [Bool.false_eq_true, if_false]
          rw [keyCostSum_cons, hmatchhd, if_neg (by simp)]
          rw [keyCostSum_eq_zero _ _ hnomatch]
          have hsome : lookupAssoc (setAssoc [] (txnKey m d) tot) k = some tot := by
            rw [lookupAssoc_setAssoc, if_pos hk.symm]
          rw [hsome]
          simp [Option.or]
        · have hlz : lookupAssoc (setAssoc [] (txnKey m d) tot) k = none := by
            rw [lookupAssoc_setAssoc, if_neg (fun h => hk h.symm)]
            rfl
          rw [hlz, if_neg hk]
          by_cases hkMD : k = txnKey (readCellText row[0]?) (readCellText row[1]?)
          · have hmatchhd : rowKeyMatches k
                (⟨readCellText row[0]?, readCellText row[1]?, readCellText row[2]?,
                  readCellText row[3]?, readCellCost row[4]?⟩ : TransactionRow) = true := by
              simp only [rowKeyMatches, rowKey, decide_eq_true_eq]
              exact hkMD.symm
            rw [if_pos hkMD, List.any_cons, hmatchhd, keyCostSum_cons, hmatchhd]
            simp [Option.or]
          · have hmatchhd : rowKeyMatches k
                (⟨readCellText row[0]?, readCellText row[1]?, readCellText row[2]?,
                  readCellText row[3]?, readCellCost row[4]?⟩ : TransactionRow) = false := by
              simp only [rowKeyMatches, rowKey, decide_eq_false_iff_not]
              exact fun h => hkMD h.symm
            rw [if_neg hkMD, List.any_cons, hmatchhd, keyCostSum_cons, hmatchhd]
            simp only [Bool.false_or, if_neg (by simp : ¬ (false = true)), zero_add]
            split
            · simp [Option.or]
            · simp [Option.or]
      · have hm0 : readCellText row[0]? = "" := not_ne_iff.mp hmer
        have hd0 : readCellText row[1]? = "" := hsd2 hm0
        simp only [if_neg hmer, hd0, ne_eq, not_true_eq_false, if_false,
          if_pos (And.intro hm (And.intro hd hitem)), List.singleton_append]
        simp only [if_neg hmer] at hnd
        rw [ih _ _ _ hm hd hcr hnd k]
        by_cases hk : k = txnKey m d
        · have hmatchhd : rowKeyMatches k
              (⟨m, d, readCellText row[2]?, readCellText row[3]?,
                readCellCost row[4]?⟩ : TransactionRow) = true := by
            simp only [rowKeyMatches, rowKey, decide_eq_true_eq]
            exact hk.symm
          rw [if_pos hk, if_pos hk, keyCostSum_cons, hmatchhd]
          simp only [if_true]
          rw [add_assoc]
        · have hmatchhd : rowKeyMatches k
              (⟨m, d, readCellText row[2]?, readCellText row[3]?,
                readCellCost row[4]?⟩ : TransactionRow) = false := by
            simp only [rowKeyMatches, rowKey, decide_eq_false_iff_not]
            exact fun h => hk h.symm
          rw [if_neg hk, if_neg hk, List.any_cons, hmatchhd, keyCostSum_cons, hmatchhd]
          simp only [Bool.false_or, if_neg (by simp : ¬ (false = true)), zero_add]

end VibeBudget

namespace VibeBudget

/-- C5 (amended): on canonical rows with distinct segment keys, the
duplicate-detection phase's map agrees with the Transaction Reader's
carry-forward reconstruction: a key is present in the map exactly when the
reader emits a row with that (lowercased-merchant, date) key, and then the
mapped total is the sum of the reader's costs for that key. -/
theorem claim_dup_grouping_amended (rows : List (List SheetVal))
    (hcf : CanonicalRows rows) (hnd : (segmentKeys rows).Nodup) (k : String) :
    lookupAssoc (existingTransactions rows) k =
      if (readTransactions rows).any (rowKeyMatches k) then
        some (keyCostSum k (readTransactions rows))
      else none := by
  obtain ⟨hcan, hhead⟩ := hcf
  cases rows with
  | nil =>
      simp [existingTransactions, existingTransAux, readTransactions,
        readTransactionsAux, lookupAssoc]
  | cons row rest =>
      obtain ⟨h5, hstr, hitem, hsd, hsd2⟩ := hcan row (List.mem_cons_self _ _)
      have hcr : ∀ r ∈ rest, RowCanonical r := fun r hr => hcan r (List.mem_cons_of_mem _ hr)
      have hlen0 : ¬ row.length = 0 := by omega
      have hlen5 : ¬ row.length < 5 := by omega
      have e0 := canonical_dupText row h5 hstr 0 (by norm_num)
      have e1 := canonical_dupText row h5 hstr 1 (by norm_num)
      have ec := dupCellCost_eq_readCellCost row[4]?
      have hmer : readCellText row[0]? ≠ "" := hhead row (by simp)
      have hdate : readCellText row[1]? ≠ "" := hsd hmer
      have hnoflush : ¬ (("" : String) ≠ "" ∧ ("" : String) ≠ "") := fun h => h.1 rfl
      unfold existingTransactions readTransactions segmentKeys at *
      simp only [existingTransAux, readTransactionsAux, segmentKeysAux,
        if_neg hlen0, if_neg hlen5, e0, e1, ec, if_pos hmer, if_pos hdate,
        if_neg hnoflush, if_pos (And.intro hmer (And.intro hdate hitem)),
        List.singleton_append, List.nil_append] at hnd ⊢
      rw [existingTransAux_lookup_spec rest _ _ _ hmer hdate hcr hnd k]
      by_cases hkMD : k = txnKey (readCellText row[0]?) (readCellText row[1]?)
      · have hmatchhd : rowKeyMatches k
            (⟨readCellText row[0]?, readCellText row[1]?, readCellText row[2]?,
              readCellText row[3]?, readCellCost row[4]?⟩ : TransactionRow) = true := by
          simp only [rowKeyMatches, rowKey, decide_eq_true_eq]
          exact hkMD.symm
        rw [if_pos hkMD, List.any_cons, hmatchhd, keyCostSum_cons, hmatchhd]
        simp
      · have hmatchhd : rowKeyMatches k
            (⟨readCellText row[0]?, readCellText row[1]?, readCellText row[2]?,
              readCellText row[3]?, readCellCost row[4]?⟩ : TransactionRow) = false := by
          simp only [rowKeyMatches, rowKey, decide_eq_false_iff_not]
          exact fun h => hkMD h.symm
        rw [if_neg hkMD, List.any_cons, hmatchhd, keyCostSum_cons, hmatchhd]
        simp only [Bool.false_or, if_neg (by simp : ¬ (false = true)), zero_add]

end VibeBudget

namespace VibeBudget

/-- C5 (counterexample): on `cxBadRows` — whose continuation row has an empty
item description — the duplicate-detection phase sums the transaction's cost
to 8 while the Transaction Reader attributes only 5 to the same
(merchant, date) transaction, so the two reconstructions are not equal. -/
theorem claim_dup_grouping_counterexample :
    lookupAssoc (existingTransactions cxBadRows) (txnKey "A" "d1") = some 8 ∧
    (readTransactions cxBadRows).any (rowKeyMatches (txnKey "A" "d1")) = true ∧
    keyCostSum (txnKey "A" "d1") (readTransactions cxBadRows) = 5 ∧
    some (8 : ℚ) ≠ some (5 : ℚ) := by
  refine ⟨?_, by decide, ?_, by decide⟩
  · have h1 : lookupAssoc (existingTransactions cxBadRows) (txnKey "A" "d1") =
        some (parseMoney "5" + parseMoney "3") := rfl
    rw [h1, parseMoney_5, parseMoney_3]
    norm_num
  · have h2 : keyCostSum (txnKey "A" "d1") (readTransactions cxBadRows) =
        parseMoney "5" + 0 := rfl
    rw [h2, parseMoney_5]
    norm_num

/-- C5 witness: the amended equivalence applied to concrete canonical rows. -/
theorem claim_dup_grouping_amended_witness :
    CanonicalRows c5GoodRows ∧ (segmentKeys c5GoodRows).Nodup ∧
    lookupAssoc (existingTransactions c5GoodRows) (txnKey "Acme" "3/1/2024") =
      (if (readTransactions c5GoodRows).any (rowKeyMatches (txnKey "Acme" "3/1/2024")) then
        some (keyCostSum (txnKey "Acme" "3/1/2024") (readTransactions c5GoodRows))
      else none) :=
  ⟨by decide, by decide,
    claim_dup_grouping_amended c5GoodRows (by decide) (by decide) _⟩

end VibeBudget

namespace VibeBudget

theorem existingAcme : existingTransactions (storeAcme.drop 1) = [("acme|2024-03-01", 100)] := by
  rw [← parseMoney_100]
  rfl

theorem existingShop : existingTransactions (storeTen.drop 1) =
    [("corner shop|2024-03-01", 10)] := by
  rw [← parseMoney_10]
  rfl

theorem anyDuplicate_single (ek : String) (ev : ℚ) (it : TransactionItem)
    (hmatch : dupEntryMatch ek it.merchant it.date = true) :
    anyDuplicate [(ek, ev)] (groupItems [it]) =
      decide (|it.cost - ev| ≤ max (it.cost * (5 / 100)) 1) := by
  simp only [groupItems, List.foldl, pushGroup, anyDuplicate, List.any_cons, List.any_nil,
    List.headD_cons, groupIsDuplicate, dupEntryFlag, groupTotal, List.map, List.sum_cons,
    List.sum_nil, add_zero, hmatch, Bool.true_and, Bool.or_false]

theorem dupAcme105 : anyDuplicate (existingTransactions (storeAcme.drop 1))
    (groupItems [acmeItem 105]) = true := by
  rw [existingAcme, anyDuplicate_single _ _ _ (by decide), decide_eq_true_eq]
  show |(acmeItem 105).cost - 100| ≤ max ((acmeItem 105).cost * (5 / 100)) 1
  simp only [acmeItem]
  rw [show (105 : ℚ) - 100 = 5 by norm_num, abs_of_nonneg (by norm_num : (0 : ℚ) ≤ 5)]
  exact le_max_of_le_left (by norm_num)

theorem dupAcme106 : anyDuplicate (existingTransactions (storeAcme.drop 1))
    (groupItems [acmeItem 106]) = false := by
  rw [existingAcme, anyDuplicate_single _ _ _ (by decide)]
  simp only [decide_eq_false_iff_not, acmeItem]
  rw [show (106 : ℚ) - 100 = 6 by norm_num, abs_of_nonneg (by norm_num : (0 : ℚ) ≤ 6),
    max_eq_left (by norm_num : (1 : ℚ) ≤ 106 * (5 / 100))]
  norm_num

theorem dupShop1099 : anyDuplicate (existingTransactions (storeTen.drop 1))
    (groupItems [shopItem (1099 / 100)]) = true := by
  rw [existingShop, anyDuplicate_single _ _ _ (by decide), decide_eq_true_eq]
  show |(shopItem (1099 / 100)).cost - 10| ≤ max ((shopItem (1099 / 100)).cost * (5 / 100)) 1
  simp only [shopItem]
  rw [show (1099 / 100 : ℚ) - 10 = 99 / 100 by norm_num,
    abs_of_nonneg (by norm_num : (0 : ℚ) ≤ 99 / 100)]
  exact le_max_of_le_right (by norm_num)

theorem dupShop1101 : anyDuplicate (existingTransactions (storeTen.drop 1))
    (groupItems [shopItem (1101 / 100)]) = false := by
  rw [existingShop, anyDuplicate_single _ _ _ (by decide)]
  simp only [decide_eq_false_iff_not, shopItem]
  rw [show (1101 / 100 : ℚ) - 10 = 101 / 100 by norm_num,
    abs_of_nonneg (by norm_num : (0 : ℚ) ≤ 101 / 100),
    max_eq_right (by norm_num : (1101 / 100 : ℚ) * (5 / 100) ≤ 1)]
  norm_num

theorem appendAcme105 : appendPOST (some 0) true storeAcme [acmeItem 105] =
    (.duplicateDetected, storeAcme, []) := by
  have h1 : ([acmeItem 105] : List TransactionItem).isEmpty = false := rfl
  simp only [appendPOST, h1, Bool.false_eq_true, if_false]
  rw [dupAcme105, if_pos rfl]

theorem appendAcme106 : (appendPOST (some 0) true storeAcme [acmeItem 106]).1 =
    .success 1 1 := by
  have h1 : ([acmeItem 106] : List TransactionItem).isEmpty = false := rfl
  simp only [appendPOST, h1, Bool.false_eq_true, if_false]
  rw [dupAcme106]
  simp only [Bool.false_eq_true, if_false]
  rfl

theorem appendShop1099 : (appendPOST (some 0) true storeTen [shopItem (1099 / 100)]).1 =
    .duplicateDetected := by
  have h1 : ([shopItem (1099 / 100)] : List TransactionItem).isEmpty = false := rfl
  simp only [appendPOST, h1, Bool.false_eq_true, if_false]
  rw [dupShop1099, if_pos rfl]

theorem appendShop1101 : (appendPOST (some 0) true storeTen [shopItem (1101 / 100)]).1 =
    .success 1 1 := by
  have h1 : ([shopItem (1101 / 100)] : List TransactionItem).isEmpty = false := rfl
  simp only [appendPOST, h1, Bool.false_eq_true, if_false]
  rw [dupShop1101]
  simp only [Bool.false_eq_true, if_false]
  rfl

/-- C1: a new transaction group is flagged as a duplicate of an existing
stored transaction with matching (lowercased) merchant and (normalized) date
exactly when `abs(newTotal - existingTotal) <= max(newTotal * 0.05, 1)`; in
particular against an existing total of 100 a new total of 105 aborts the
append as a duplicate and 106 does not, and against an existing total of 10
a new total of 10.99 aborts while 11.01 does not. -/
theorem claim_duplicate_tolerance :
    (∀ (existing : List (String × ℚ)) (m d : String) (t : ℚ),
        groupIsDuplicate existing m d t = true ↔
          ∃ e ∈ existing, dupEntryMatch e.1 m d = true ∧
            |t - e.2| ≤ max (t * (5 / 100)) 1) ∧
    appendPOST (some 0) true storeAcme [acmeItem 105] = (.duplicateDetected, storeAcme, []) ∧
    (appendPOST (some 0) true storeAcme [acmeItem 106]).1 = .success 1 1 ∧
    (appendPOST (some 0) true storeTen [shopItem (1099 / 100)]).1 = .duplicateDetected ∧
    (appendPOST (some 0) true storeTen [shopItem (1101 / 100)]).1 = .success 1 1 := by
  refine ⟨?_, appendAcme105, appendAcme106, appendShop1099, appendShop1101⟩
  intro existing m d t
  simp only [groupIsDuplicate, List.any_eq_true, dupEntryFlag, Bool.and_eq_true,
    decide_eq_true_eq]

/-- C2: an append call in which some new transaction group matches an existing
stored transaction as a duplicate returns `DuplicateDetected`, appends no rows
at all (the store is unchanged) and issues no merges, whatever the sheet-id
resolution and merge outcome. -/
theorem claim_duplicate_aborts_append (sheetId : Option Int) (mergeOK : Bool)
    (store : List (List SheetVal)) (items : List TransactionItem)
    (hdup : ∃ g ∈ groupItems items,
        groupIsDuplicate (existingTransactions (store.drop 1))
          (g.2.headD dummyItem).merchant (g.2.headD dummyItem).date
          (groupTotal g.2) = true) :
    appendPOST sheetId mergeOK store items = (.duplicateDetected, store, []) := by
  have hne : items.isEmpty = false := by
    cases items with
    | nil =>
        obtain ⟨g, hg, _⟩ := hdup
        simp [groupItems] at hg
    | cons a l => rfl
  have hany : anyDuplicate (existingTransactions (store.drop 1)) (groupItems items) = true := by
    apply List.any_eq_true.mpr
    obtain ⟨g, hg, hflag⟩ := hdup
    exact ⟨g, hg, hflag⟩
  simp only [appendPOST, hne, Bool.false_eq_true, if_false]
  rw [hany, if_pos rfl]

/-- C2 witness: the duplicate abort applied to a concrete duplicate receipt. -/
theorem claim_duplicate_aborts_append_witness :
    (∃ g ∈ groupItems [acmeItem 105],
        groupIsDuplicate (existingTransactions (storeAcme.drop 1))
          (g.2.headD dummyItem).merchant (g.2.headD dummyItem).date
          (groupTotal g.2) = true) ∧
    appendPOST (some 3) false storeAcme [acmeItem 105] = (.duplicateDetected, storeAcme, []) := by
  have h2 : (groupIsDuplicate (existingTransactions (storeAcme.drop 1)) "Acme" "2024-03-01"
      (groupTotal [acmeItem 105]) || false) = true := dupAcme105
  simp only [Bool.or_false] at h2
  have hex : ∃ g ∈ groupItems [acmeItem 105],
      groupIsDuplicate (existingTransactions (storeAcme.drop 1))
        (g.2.headD dummyItem).merchant (g.2.headD dummyItem).date
        (groupTotal g.2) = true :=
    ⟨("Acme|2024-03-01", [acmeItem 105]), by decide, h2⟩
  exact ⟨hex, claim_duplicate_aborts_append (some 3) false storeAcme [acmeItem 105] hex⟩

end VibeBudget

namespace VibeBudget

theorem assocFind_pushGroup (gs : List (String × List TransactionItem)) (k0 : String)
    (it : TransactionItem) (k : String) :
    assocFind (pushGroup gs k0 it) k =
      if k0 = k then some ((assocFind gs k).getD [] ++ [it]) else assocFind gs k := by
  induction gs with
  | nil =>
      simp only [pushGroup, assocFind]
      split <;> rfl
  | cons p rest ih =>
      obtain ⟨k1, l⟩ := p
      by_cases h1 : k1 = k0
      · subst h1
        simp only [pushGroup, if_pos rfl, assocFind]
        by_cases h2 : k1 = k
        · subst h2
          simp [assocFind]
        · simp [assocFind, h2]
      · simp only [pushGroup, if_neg h1, assocFind]
        by_cases h2 : k1 = k
        · subst h2
          have h3 : ¬ k0 = k1 := fun h => h1 h.symm
          simp [assocFind, h3]
        · simp only [if_neg h2, ih]

theorem foldl_pushGroup_find (items : List TransactionItem) :
    ∀ (gs : List (String × List TransactionItem)) (k : String),
      assocFind (items.foldl (fun gs it => pushGroup gs (itemKey it) it) gs) k =
        match assocFind gs k with
        | some l => some (l ++ items.filter (fun it => itemKey it == k))
        | none =>
            if (items.filter (fun it => itemKey it == k)).isEmpty then none
            else some (items.filter (fun it => itemKey it == k)) := by
  induction items with
  | nil =>
      intro gs k
      cases h : assocFind gs k <;> simp [h]
  | cons it rest ih =>
      intro gs k
      rw [List.foldl_cons, ih]
      rw [assocFind_pushGroup]
      by_cases hk : itemKey it = k
      · have hbeq : (itemKey it == k) = true := by simpa using hk
        rw [if_pos hk]
        simp only [List.filter_cons, hbeq, if_true]
        cases h : assocFind gs k with
        | none => simp [h]
        | some l => simp [h]
      · have hbeq : (itemKey it == k) = false := by simpa using hk
        rw [if_neg hk]
        simp only [List.filter_cons, hbeq, Bool.false_eq_true, if_false]

theorem pushGroup_keys (gs : List (String × List TransactionItem)) (k0 : String)
    (it : TransactionItem) :
    (pushGroup gs k0 it).map Prod.fst =
      if k0 ∈ gs.map Prod.fst then gs.map Prod.fst else gs.map Prod.fst ++ [k0] := by
  induction gs with
  | nil => simp [pushGroup]
  | cons p rest ih =>
      obtain ⟨k1, l⟩ := p
      by_cases h1 : k1 = k0
      · subst h1
        simp [pushGroup]
      · simp only [pushGroup, if_neg h1, List.map_cons, ih]
        by_cases h2 : k0 ∈ rest.map Prod.fst
        · rw [if_pos h2, if_pos (List.mem_cons_of_mem _ h2)]
        · rw [if_neg h2, if_neg (by
            intro hc
            rcases List.mem_cons.mp hc with hc | hc
            · exact h1 hc.symm
            · exact h2 hc)]
          rfl

theorem foldl_pushGroup_keys (items : List TransactionItem) :
    ∀ gs, (items.foldl (fun gs it => pushGroup gs (itemKey it) it) gs).map Prod.fst =
      (items.map itemKey).foldl (fun acc k => if k ∈ acc then acc else acc ++ [k])
        (gs.map Prod.fst) := by
  induction items with
  | nil => intro gs; rfl
  | cons it rest ih =>
      intro gs
      rw [List.foldl_cons, ih, List.map_cons, List.foldl_cons, pushGroup_keys]

theorem groupItems_keys (items : List TransactionItem) :
    (groupItems items).map Prod.fst = firstSeenKeys (items.map itemKey) :=
  foldl_pushGroup_keys items []

theorem nodup_append_singleton {α : Type} (l : List α) (a : α) (hl : l.Nodup)
    (ha : a ∉ l) : (l ++ [a]).Nodup := by
  rw [List.nodup_append]
  exact ⟨hl, List.nodup_singleton a, fun x hx hxa => ha ((List.mem_singleton.mp hxa) ▸ hx)⟩

theorem firstSeen_foldl_nodup (ks : List String) :
    ∀ acc : List String, acc.Nodup →
      (ks.foldl (fun acc k => if k ∈ acc then acc else acc ++ [k]) acc).Nodup := by
  induction ks with
  | nil => intro acc h; exact h
  | cons k rest ih =>
      intro acc hacc
      rw [List.foldl_cons]
      by_cases hk : k ∈ acc
      · rw [if_pos hk]; exact ih acc hacc
      · rw [if_neg hk]; exact ih _ (nodup_append_singleton acc k hacc hk)

theorem groupItems_keys_nodup (items : List TransactionItem) :
    ((groupItems items).map Prod.fst).Nodup := by
  rw [groupItems_keys]
  exact firstSeen_foldl_nodup _ [] List.nodup_nil

theorem assocFind_of_mem (gs : List (String × List TransactionItem))
    (hnd : (gs.map Prod.fst).Nodup) (g : String × List TransactionItem) (hg : g ∈ gs) :
    assocFind gs g.1 = some g.2 := by
  induction gs with
  | nil => cases hg
  | cons p rest ih =>
      rcases List.mem_cons.mp hg with hg1 | hg1
      · subst hg1
        simp [assocFind]
      · rw [List.map_cons] at hnd
        have hpair := List.nodup_cons.mp hnd
        have hne : ¬ p.1 = g.1 := by
          intro h
          exact hpair.1 (h ▸ List.mem_map_of_mem Prod.fst hg1)
        have hfst : assocFind (p :: rest) g.1 = assocFind rest g.1 := by
          obtain ⟨pk, pl⟩ := p
          simp only [assocFind, if_neg hne]
        rw [hfst]
        exact ih hpair.2 hg1

theorem groupItems_group_spec (items : List TransactionItem)
    (g : String × List TransactionItem) (hg : g ∈ groupItems items) :
    g.2 = items.filter (fun it => itemKey it == g.1) ∧ g.2 ≠ [] := by
  have hfind : assocFind (groupItems items) g.1 = some g.2 :=
    assocFind_of_mem _ (groupItems_keys_nodup items) g hg
  have hspec : assocFind (groupItems items) g.1 =
      (if (items.filter (fun it => itemKey it == g.1)).isEmpty = true then none
       else some (items.filter (fun it => itemKey it == g.1))) :=
    foldl_pushGroup_find items [] g.1
  rw [hfind] at hspec
  by_cases hemp : (items.filter (fun it => itemKey it == g.1)).isEmpty = true
  · rw [if_pos hemp] at hspec
    exact (Option.some_ne_none _ hspec).elim
  · rw [if_neg hemp] at hspec
    have heq : g.2 = items.filter (fun it => itemKey it == g.1) := by
      injection hspec
    refine ⟨heq, ?_⟩
    intro hnil
    rw [hnil] at heq
    rw [← heq] at hemp
    exact hemp rfl

end VibeBudget

namespace VibeBudget

theorem append_pipe_inj : ∀ (a c : List Char) (b d : List Char),
    '|' ∉ a → '|' ∉ c → a ++ '|' :: b = c ++ '|' :: d → a = c ∧ b = d
  | [], [], b, d, _, _, h => by
      simp only [List.nil_append, List.cons.injEq] at h
      exact ⟨rfl, h.2⟩
  | [], y :: c', b, d, _, hc, h => by
      simp only [List.nil_append, List.cons_append, List.cons.injEq] at h
      exact absurd (h.1 ▸ List.mem_cons_self y c') (by
        intro hmem
        exact hc (h.1 ▸ List.mem_cons_self y c'))
  | x :: a', [], b, d, ha, _, h => by
      simp only [List.cons_append, List.nil_append, List.cons.injEq] at h
      exact absurd (h.1 ▸ List.mem_cons_self x a') (fun _ => ha (h.1 ▸ List.mem_cons_self x a'))
  | x :: a', y :: c', b, d, ha, hc, h => by
      simp only [List.cons_append, List.cons.injEq] at h
      have hrec := append_pipe_inj a' c' b d
        (fun hm => ha (List.mem_cons_of_mem _ hm))
        (fun hm => hc (List.mem_cons_of_mem _ hm)) h.2
      exact ⟨by rw [h.1, hrec.1], hrec.2⟩

theorem string_pipe_key_inj (m1 d1 m2 d2 : String)
    (h1 : '|' ∉ m1.data) (h2 : '|' ∉ m2.data)
    (h : m1 ++ "|" ++ d1 = m2 ++ "|" ++ d2) : m1 = m2 ∧ d1 = d2 := by
  have hd : m1.data ++ '|' :: d1.data = m2.data ++ '|' :: d2.data := by
    have := congrArg String.data h
    simpa [String.data_append] using this
  obtain ⟨hm, hdd⟩ := append_pipe_inj _ _ _ _ h1 h2 hd
  constructor
  · cases m1; cases m2
    simp only at hm
    rw [hm]
  · cases d1; cases d2
    simp only at hdd
    rw [hdd]

theorem itemKey_pair_inj (it1 it2 : TransactionItem)
    (h1 : '|' ∉ it1.merchant.data) (h2 : '|' ∉ it2.merchant.data)
    (h : itemKey it1 = itemKey it2) : it1.merchant = it2.merchant ∧ it1.date = it2.date :=
  string_pipe_key_inj _ _ _ _ h1 h2 h

theorem rowsOfGroup_length (its : List TransactionItem) :
    (rowsOfGroup its).length = its.length := by
  cases its with
  | nil => rfl
  | cons a l => simp [rowsOfGroup]

theorem buildRows_fst (groups : List (String × List TransactionItem)) :
    ∀ n, (buildRowsAndMerges n groups).1 = groups.flatMap (fun g => rowsOfGroup g.2) := by
  induction groups with
  | nil => intro n; rfl
  | cons g rest ih =>
      intro n
      obtain ⟨k, its⟩ := g
      simp only [buildRowsAndMerges, List.flatMap_cons]
      rw [ih]

theorem buildRows_snd (groups : List (String × List TransactionItem)) :
    ∀ n, (buildRowsAndMerges n groups).2 =
      (groupOffsets n groups).filterMap
        (fun p => if 1 < p.2.2.length then some (p.1, p.1 + p.2.2.length - 1) else none) := by
  induction groups with
  | nil => intro n; rfl
  | cons g rest ih =>
      intro n
      obtain ⟨k, its⟩ := g
      simp only [buildRowsAndMerges, groupOffsets, List.filterMap_cons]
      by_cases h : 1 < its.length
      · rw [if_pos h]
        simp only [if_pos h]
        rw [ih]
        rfl
      · rw [if_neg h]
        simp only [if_neg h]
        rw [ih]
        rfl

theorem groupOffsets_lower (groups : List (String × List TransactionItem)) :
    ∀ n p, p ∈ groupOffsets n groups → n ≤ p.1 := by
  induction groups with
  | nil => intro n p hp; cases hp
  | cons g rest ih =>
      intro n p hp
      rcases List.mem_cons.mp hp with h | h
      · rw [h]
      · have := ih _ p h
        omega

theorem rows_segment (groups : List (String × List TransactionItem)) :
    ∀ n p, p ∈ groupOffsets n groups →
      (((buildRowsAndMerges n groups).1).drop (p.1 - n)).take p.2.2.length =
        rowsOfGroup p.2.2 := by
  induction groups with
  | nil => intro n p hp; cases hp
  | cons g rest ih =>
      intro n p hp
      obtain ⟨k, its⟩ := g
      simp only [buildRowsAndMerges]
      rcases List.mem_cons.mp hp with h | h
      · subst h
        simp only [Nat.sub_self, List.drop_zero]
        rw [← rowsOfGroup_length its]
        exact List.take_left _ _
      · have hlow : n + its.length ≤ p.1 := groupOffsets_lower rest (n + its.length) p h
        have hsplit : p.1 - n = (rowsOfGroup its).length + (p.1 - (n + its.length)) := by
          rw [rowsOfGroup_length]
          omega
        rw [hsplit, List.drop_append]
        exact ih (n + its.length) p h

end VibeBudget

namespace VibeBudget

/-- C6 (counterexample): grouping is keyed by the concatenation
`merchant + "|" + date`, not by the exact (merchant, date) pair: two items
with different merchants ("A|B" with date "C", and "A" with date "B|C") land
in one group, so the partition is not keyed by the pair. -/
theorem claim_grouping_key_counterexample :
    groupItems [cxPipeItem1, cxPipeItem2] = [("A|B|C", [cxPipeItem1, cxPipeItem2])] ∧
    cxPipeItem1.merchant ≠ cxPipeItem2.merchant := by
  constructor
  · rfl
  · decide

/-- C6 (amended): when no merchant contains the `|` key separator, the append
call partitions items by the exact (merchant, date) string pair in first-seen
key order with within-group insertion order; in the constructed rows only the
first row of each group carries merchant and date (later rows blank both);
each group's rows occupy the contiguous span starting at its recorded offset;
and a merge range is recorded exactly for groups with more than one item,
spanning the group's row span, with one merge request for the Merchant column
and one for the Date column per range. -/
theorem claim_grouping_rows_merges_amended (items : List TransactionItem) (n : Nat)
    (hpipe : ∀ it ∈ items, '|' ∉ it.merchant.data) :
    (groupItems items).map Prod.fst = firstSeenKeys (items.map itemKey) ∧
    (∀ g ∈ groupItems items,
        g.2 = items.filter (fun it => itemKey it == g.1) ∧ g.2 ≠ [] ∧
        ∀ it1 ∈ g.2, ∀ it2 ∈ g.2, it1.merchant = it2.merchant ∧ it1.date = it2.date) ∧
    (buildRowsAndMerges n (groupItems items)).1 =
      (groupItems items).flatMap (fun g => rowsOfGroup g.2) ∧
    (buildRowsAndMerges n (groupItems items)).2 =
      (groupOffsets n (groupItems items)).filterMap
        (fun p => if 1 < p.2.2.length then some (p.1, p.1 + p.2.2.length - 1) else none) ∧
    (∀ p ∈ groupOffsets n (groupItems items),
        (((buildRowsAndMerges n (groupItems items)).1).drop (p.1 - n)).take p.2.2.length =
          rowsOfGroup p.2.2) ∧
    (∀ (sid : Int) (ranges : List (Nat × Nat)), mergeRequestsOf sid ranges =
        ranges.flatMap (fun r => [⟨sid, r.1, r.2 + 1, 0, 1⟩, ⟨sid, r.1, r.2 + 1, 1, 2⟩])) := by
  refine ⟨groupItems_keys items, ?_, buildRows_fst _ n, buildRows_snd _ n,
    rows_segment _ n, fun _ _ => rfl⟩
  intro g hg
  obtain ⟨hfilter, hne⟩ := groupItems_group_spec items g hg
  refine ⟨hfilter, hne, ?_⟩
  intro it1 h1 it2 h2
  rw [hfilter] at h1 h2
  have hk1 : itemKey it1 = g.1 := by simpa using List.of_mem_filter h1
  have hk2 : itemKey it2 = g.1 := by simpa using List.of_mem_filter h2
  exact itemKey_pair_inj it1 it2
    (hpipe it1 (List.mem_of_mem_filter h1))
    (hpipe it2 (List.mem_of_mem_filter h2))
    (hk1.trans hk2.symm)

/-- C6 witness: the amended grouping contract applied to concrete items. -/
theorem claim_grouping_rows_merges_amended_witness :
    (∀ it ∈ c3Items, '|' ∉ it.merchant.data) ∧
    (groupItems c3Items).map Prod.fst = firstSeenKeys (c3Items.map itemKey) ∧
    (buildRowsAndMerges 1 (groupItems c3Items)).2 =
      (groupOffsets 1 (groupItems c3Items)).filterMap
        (fun p => if 1 < p.2.2.length then some (p.1, p.1 + p.2.2.length - 1) else none) :=
  ⟨by decide, (claim_grouping_rows_merges_amended c3Items 1 (by decide)).1,
    (claim_grouping_rows_merges_amended c3Items 1 (by decide)).2.2.2.1⟩

end VibeBudget

namespace VibeBudget

theorem buildRows_ranges_nil_of_rows_nil (groups : List (String × List TransactionItem)) :
    ∀ n, (buildRowsAndMerges n groups).1 = [] → (buildRowsAndMerges n groups).2 = [] := by
  induction groups with
  | nil => intro n _; rfl
  | cons g rest ih =>
      intro n h
      obtain ⟨k, its⟩ := g
      simp only [buildRowsAndMerges] at h ⊢
      rw [List.append_eq_nil] at h
      have hits : its = [] := by
        cases its with
        | nil => rfl
        | cons a l => simp [rowsOfGroup] at h
      subst hits
      simp only [List.length_nil, Nat.lt_irrefl, if_false, List.nil_append]
      exact ih n h.2

/-- C8 (counterexample): with a resolvable sheet id but a failing merge
`batchUpdate`, the append lands in the catch-all and does not return success —
even though the two rows were already written to the store. -/
theorem claim_merge_failure_counterexample :
    (appendPOST (some 7) false [headerRow] cxPairItems).1 = .appendFailed ∧
    (appendPOST (some 7) false [headerRow] cxPairItems).2.1 =
      [headerRow] ++ (buildRowsAndMerges 1 (groupItems cxPairItems)).1 ∧
    (buildRowsAndMerges 1 (groupItems cxPairItems)).1.length = 2 ∧
    AppendOutcome.appendFailed ≠ AppendOutcome.success 2 1 := by
  exact ⟨rfl, rfl, rfl, by decide⟩

/-- C8 (amended): when the table identifier cannot be resolved (`sheetId`
null), the append still returns success with the row and transaction counts
and the rows written, merges skipped; but when the merge call itself fails
after the row write, the handler reports `AppendFailed` — the written rows
remain (no rollback), yet the response is not success. -/
theorem claim_merge_failure_amended (store : List (List SheetVal))
    (items : List TransactionItem) (mergeOK : Bool) (hne : items ≠ [])
    (hnd : anyDuplicate (existingTransactions (store.drop 1)) (groupItems items) = false) :
    (appendPOST none mergeOK store items =
      (.success (buildRowsAndMerges store.length (groupItems items)).1.length
        (groupItems items).length,
       store ++ (buildRowsAndMerges store.length (groupItems items)).1, [])) ∧
    (∀ sid : Int, (buildRowsAndMerges store.length (groupItems items)).2 ≠ [] →
      appendPOST (some sid) false store items =
        (.appendFailed, store ++ (buildRowsAndMerges store.length (groupItems items)).1,
         [])) := by
  have hie : items.isEmpty = false := by
    cases items with
    | nil => exact absurd rfl hne
    | cons a l => rfl
  constructor
  · simp only [appendPOST, hie, Bool.false_eq_true, if_false]
    rw [hnd]
    simp only [Bool.false_eq_true, if_false]
    by_cases hr : (buildRowsAndMerges store.length (groupItems items)).1.isEmpty = true
    · rw [if_pos hr]
      have hnil : (buildRowsAndMerges store.length (groupItems items)).1 = [] :=
        List.isEmpty_iff.mp hr
      rw [hnil, List.append_nil]
    · rw [if_neg hr]
      cases hR : (buildRowsAndMerges store.length (groupItems items)).2 with
      | nil => rfl
      | cons a l => rfl
  · intro sid hr2
    have hrows : (buildRowsAndMerges store.length (groupItems items)).1 ≠ [] := by
      intro hnil
      exact hr2 (buildRows_ranges_nil_of_rows_nil _ _ hnil)
    have hie2 : (buildRowsAndMerges store.length (groupItems items)).1.isEmpty = false := by
      cases hc : (buildRowsAndMerges store.length (groupItems items)).1 with
      | nil => exact absurd hc hrows
      | cons a l => rfl
    simp only [appendPOST, hie, Bool.false_eq_true, if_false]
    rw [hnd]
    simp only [Bool.false_eq_true, if_false]
    rw [hie2]
    simp only [Bool.false_eq_true, if_false]
    cases hR : (buildRowsAndMerges store.length (groupItems items)).2 with
    | nil => exact absurd hR hr2
    | cons a l => rfl

/-- C8 witness: the null-sheet-id append still succeeds on concrete items. -/
theorem claim_merge_failure_amended_witness :
    (cxPairItems ≠ [] ∧
      anyDuplicate (existingTransactions (([headerRow] : List (List SheetVal)).drop 1))
        (groupItems cxPairItems) = false) ∧
    appendPOST none true [headerRow] cxPairItems =
      (.success (buildRowsAndMerges ([headerRow] : List (List SheetVal)).length
          (groupItems cxPairItems)).1.length (groupItems cxPairItems).length,
       [headerRow] ++ (buildRowsAndMerges ([headerRow] : List (List SheetVal)).length
          (groupItems cxPairItems)).1, []) :=
  ⟨⟨by decide, by decide⟩,
    (claim_merge_failure_amended [headerRow] cxPairItems true (by decide) (by decide)).1⟩

end VibeBudget

namespace VibeBudget

/-- C7 (counterexample): a provider response that parses as JSON but whose
items all lack `cost` fails zod schema validation, so the handler returns the
uniform extraction failure ("OpenAI failed to respond"), not
`NoReceiptDetected`. -/
theorem claim_missing_cost_counterexample :
    extractPOST "2024-06-01" [cxNoCostItem] = .extractionFailed ∧
    ExtractOutcome.extractionFailed ≠ ExtractOutcome.noReceiptDetected := by
  exact ⟨rfl, by decide⟩

/-- C7 (amended): a non-empty response whose items all lack `cost` yields
`ExtractionFailed` (schema rejection) rather than a crash; for schema-valid
responses, `NoReceiptDetected` is returned exactly when normalization leaves
zero items; and normalization drops an item exactly when its merchant or item
description is falsy or its cost is absent. -/
theorem claim_missing_cost_amended :
    (∀ (today : String) (items : List RawItem), items ≠ [] →
        (∀ it ∈ items, it.cost = none) → extractPOST today items = .extractionFailed) ∧
    (∀ (today : String) (items : List RawItem), zodResponseOK items = true →
        (extractPOST today items = .noReceiptDetected ↔
          items.filterMap (normalizeRawItem today) = [])) ∧
    (∀ (today : String) (it : RawItem),
        normalizeRawItem today it = none ↔
          (jvalFalsy it.merchant || jvalFalsy it.item || it.cost = none) = true) := by
  refine ⟨?_, ?_, ?_⟩
  · intro today items hne hcost
    cases items with
    | nil => exact absurd rfl hne
    | cons a l =>
        have hzod : zodItemOK a = false := by
          have hc := hcost a (List.mem_cons_self _ _)
          simp [zodItemOK, hc]
        have hall : zodResponseOK (a :: l) = false := by
          simp [zodResponseOK, List.all_cons, hzod]
        simp [extractPOST, hall]
  · intro today items h
    simp only [extractPOST, h, Bool.not_true, Bool.false_eq_true, if_false]
    by_cases hv : (items.filterMap (normalizeRawItem today)).isEmpty = true
    · rw [if_pos hv]
      simp [List.isEmpty_iff.mp hv]
    · rw [if_neg hv]
      constructor
      · intro hcon
        exact ExtractOutcome.noConfusion hcon
      · intro hnil
        exact absurd (by rw [hnil]; rfl) hv
  · intro today it
    unfold normalizeRawItem
    split
    next hcond => simp [hcond]
    next hcond => simp [hcond]

/-- C7 witness: the amended behaviour at concrete provider items. -/
theorem claim_missing_cost_amended_witness :
    (([cxNoCostItem] : List RawItem) ≠ [] ∧ (∀ it ∈ [cxNoCostItem], it.cost = none)) ∧
    extractPOST "2024-06-02" [cxNoCostItem] = .extractionFailed ∧
    (zodResponseOK [cxZodEmptyMerchant] = true ∧
      (extractPOST "2024-06-02" [cxZodEmptyMerchant] = .noReceiptDetected ↔
        ([cxZodEmptyMerchant] : List RawItem).filterMap
          (normalizeRawItem "2024-06-02") = [])) :=
  ⟨⟨by decide, by decide⟩,
    claim_missing_cost_amended.1 "2024-06-02" [cxNoCostItem] (by decide) (by decide),
    by decide,
    claim_missing_cost_amended.2.1 "2024-06-02" [cxZodEmptyMerchant] (by decide)⟩

/-- C10 (counterexample): an item whose cost is present is still dropped when
its merchant is empty, so "dropped only when cost is absent" fails as
stated. -/
theorem claim_zero_cost_counterexample :
    normalizeRawItem "2024-06-01" cxEmptyMerchantItem = none ∧
    cxEmptyMerchantItem.cost ≠ none := by
  exact ⟨rfl, by decide⟩

/-- C10 (amended): for an item whose merchant and item description are both
non-falsy, normalization drops it exactly when its cost field is absent; a
cost of exactly 0 is kept as a zero-cost line item, and a string cost that
fails numeric parsing is kept coerced to 0. -/
theorem claim_zero_cost_amended (today : String) (it : RawItem)
    (hm : jvalFalsy it.merchant = false) (hi : jvalFalsy it.item = false) :
    ((normalizeRawItem today it).isSome ↔ it.cost ≠ none) ∧
    (∀ q : ℚ, it.cost = some (.num q) →
      ∃ out, normalizeRawItem today it = some out ∧ out.cost = q) ∧
    (∀ s : String, it.cost = some (.str s) → jsParseFloat s = none →
      ∃ out, normalizeRawItem today it = some out ∧ out.cost = 0) := by
  refine ⟨?_, ?_, ?_⟩
  · unfold normalizeRawItem
    rw [hm, hi]
    simp only [Bool.false_or]
    by_cases hc : it.cost = none
    · simp [hc]
    · simp [hc]
  · intro q hq
    unfold normalizeRawItem
    rw [hm, hi, hq]
    simp only [Bool.false_or]
    rw [if_neg (by simp)]
    exact ⟨_, rfl, rfl⟩
  · intro s hs hparse
    unfold normalizeRawItem
    rw [hm, hi, hs]
    simp only [Bool.false_or]
    rw [if_neg (by simp)]
    refine ⟨_, rfl, ?_⟩
    show (jsParseFloat s).getD 0 = 0
    rw [hparse]
    rfl

/-- C10 witness: a zero cost and an unparsable string cost are both retained
as zero-cost items. -/
theorem claim_zero_cost_amended_witness :
    (jvalFalsy cxZeroCostItem.merchant = false ∧ jvalFalsy cxZeroCostItem.item = false) ∧
    (∃ out, normalizeRawItem "2024-06-03" cxZeroCostItem = some out ∧ out.cost = 0) ∧
    (∃ out, normalizeRawItem "2024-06-03" cxBadCostStrItem = some out ∧ out.cost = 0) :=
  ⟨⟨by decide, by decide⟩,
    (claim_zero_cost_amended "2024-06-03" cxZeroCostItem (by decide) (by decide)).2.1 0
      (by decide),
    (claim_zero_cost_amended "2024-06-03" cxBadCostStrItem (by decide) (by decide)).2.2 "abc"
      (by decide) (by decide)⟩

end VibeBudget

namespace VibeBudget

/-- C4: the Transaction Reader is a fold with carry-forward merchant and date
(a non-empty merchant cell updates the carried merchant, a non-empty date cell
independently updates the carried date); a row emits a Line Item exactly when
merchant, date and item description are non-empty after carry-forward
substitution, all other rows are skipped silently; the emitted cost strips
`$` and `,` before the numeric parse, defaulting to 0, so `"$1,234.56"`
parses to `1234.56`. -/
theorem claim_reader_carry_forward_fold :
    (∀ (row : List SheetVal) (rest : List (List SheetVal)) (curM curD : String),
        readTransactionsAux (row :: rest) curM curD =
          (if (if readCellText row[0]? ≠ "" then readCellText row[0]? else curM) ≠ "" ∧
              (if readCellText row[1]? ≠ "" then readCellText row[1]? else curD) ≠ "" ∧
              readCellText row[3]? ≠ "" then
            [⟨if readCellText row[0]? ≠ "" then readCellText row[0]? else curM,
              if readCellText row[1]? ≠ "" then readCellText row[1]? else curD,
              readCellText row[2]?, readCellText row[3]?, readCellCost row[4]?⟩]
          else []) ++
            readTransactionsAux rest
              (if readCellText row[0]? ≠ "" then readCellText row[0]? else curM)
              (if readCellText row[1]? ≠ "" then readCellText row[1]? else curD)) ∧
    readCellCost (some (.str "$1,234.56")) = 123456 / 100 ∧
    readTransactions [[.str "A", .str "2024-03-01", .str "Food", .str "Apples",
        .str "$1,234.56"]] =
      [⟨"A", "2024-03-01", "Food", "Apples", 123456 / 100⟩] := by
  have hcost : readCellCost (some (.str "$1,234.56")) = parseMoney "$1,234.56" := rfl
  refine ⟨?_, ?_, ?_⟩
  · intro row rest curM curD
    by_cases hl : row.length = 0
    · have hrow : row = [] := List.length_eq_zero.mp hl
      subst hrow
      simp [readTransactionsAux, readCellText]
    · simp only [readTransactionsAux, if_neg hl]
  · rw [hcost, parseMoney_currency_example]
  · have h3 : readTransactions [[.str "A", .str "2024-03-01", .str "Food", .str "Apples",
        .str "$1,234.56"]] =
        [⟨"A", "2024-03-01", "Food", "Apples",
          readCellCost (some (.str "$1,234.56"))⟩] := rfl
    rw [h3, hcost, parseMoney_currency_example]

/-- C9: after the formatter runs, row 1 columns A–E hold exactly the header
values `Merchant, Date, Category, Item, Cost` whatever the prior contents
(overwrite); no cell value outside row 1 is written; and re-applying the
formatter any number of times leaves every data-row cell value unchanged. -/
theorem claim_formatter_header_frame :
    ∀ g : Grid,
      (∀ c, c < 5 → formatTransactionsSheet g 0 c = transactionsHeaderValues[c]?) ∧
      (∀ r c, 1 ≤ r → formatTransactionsSheet g r c = g r c) ∧
      (∀ n r c, 1 ≤ r → (formatTransactionsSheet)^[n] g r c = g r c) := by
  have hfmt : ∀ (g : Grid) (r c : Nat), formatTransactionsSheet g r c =
      if 0 ≤ r ∧ r < 1 ∧ 0 ≤ c ∧ c < 5 then
        transactionsHeaderValues[(r - 0) * (5 - 0) + (c - 0)]?
      else g r c := fun g r c => rfl
  have hframe : ∀ (g : Grid) (r c : Nat), 1 ≤ r → formatTransactionsSheet g r c = g r c := by
    intro g r c hr
    rw [hfmt]
    exact if_neg (fun h => by omega)
  intro g
  refine ⟨?_, fun r c hr => hframe g r c hr, ?_⟩
  · intro c hc
    rw [hfmt, if_pos ⟨Nat.zero_le _, Nat.lt_succ_self 0, Nat.zero_le _, hc⟩]
    simp
  · intro n
    induction n with
    | zero => intro r c _; rfl
    | succ n ih =>
        intro r c hr
        rw [Function.iterate_succ_apply']
        rw [hframe _ r c hr]
        exact ih r c hr

/-- C9 witness: the formatter contract at a concrete grid. -/
theorem claim_formatter_header_frame_witness :
    formatTransactionsSheet sampleGrid 0 0 = transactionsHeaderValues[0]? ∧
    formatTransactionsSheet sampleGrid 3 2 = sampleGrid 3 2 ∧
    (formatTransactionsSheet)^[2] sampleGrid 5 1 = sampleGrid 5 1 :=
  ⟨(claim_formatter_header_frame sampleGrid).1 0 (by norm_num),
   (claim_formatter_header_frame sampleGrid).2.1 3 2 (by norm_num),
   (claim_formatter_header_frame sampleGrid).2.2 2 5 1 (by norm_num)⟩

end VibeBudget

namespace VibeBudget

theorem digitChar_isDigit (n : Nat) : isDigitChar (digitChar n) = true := by
  rcases n with _|_|_|_|_|_|_|_|_|n <;> rfl

theorem digit_not_ws (c : Char) (h : isDigitChar c = true) : isJsWhitespace c = false := by
  simp only [isDigitChar, Bool.and_eq_true, decide_eq_true_eq] at h
  simp only [isJsWhitespace, Bool.or_eq_false_iff, beq_eq_false_iff_ne]
  refine ⟨⟨⟨?_, ?_⟩, ?_⟩, ?_⟩ <;>
    exact fun hc => absurd (hc ▸ h) (by decide)

theorem digit_ne (c : Char) (h : isDigitChar c = true) (d : Char)
    (hd : d.toNat < 48 ∨ 57 < d.toNat) : c ≠ d := by
  simp only [isDigitChar, Bool.and_eq_true, decide_eq_true_eq] at h
  intro heq
  subst heq
  rcases hd with hd | hd <;> omega

theorem takeWhile_all_true {α : Type} (p : α → Bool) :
    ∀ l : List α, (∀ c ∈ l, p c = true) → l.takeWhile p = l
  | [], _ => rfl
  | c :: rest, h => by
      have hc := h c (List.mem_cons_self c rest)
      simp only [List.takeWhile_cons, hc, if_true]
      rw [takeWhile_all_true p rest (fun x hx => h x (List.mem_cons_of_mem _ hx))]

theorem natToCharsAux_digits :
    ∀ (fuel n : Nat) (acc : List Char), n < fuel →
      ∃ ds, natToCharsAux fuel n acc = ds ++ acc ∧ ds ≠ [] ∧
        ∀ c ∈ ds, isDigitChar c = true := by
  intro fuel
  induction fuel with
  | zero => intro n acc h; omega
  | succ fuel ih =>
      intro n acc h
      by_cases h10 : n < 10
      · exact ⟨[digitChar n], by simp [natToCharsAux, h10], by simp, by
          intro c hc
          rw [List.mem_singleton.mp hc]
          exact digitChar_isDigit n⟩
      · have hlt : n / 10 < fuel := by
          have := Nat.div_lt_self (by omega : 0 < n) (by omega : 1 < 10)
          omega
        obtain ⟨ds, hds, hne, hdig⟩ := ih (n / 10) (digitChar (n % 10) :: acc) hlt
        refine ⟨ds ++ [digitChar (n % 10)], ?_, by simp, ?_⟩
        · simp only [natToCharsAux, if_neg h10]
          rw [hds, List.append_assoc, List.singleton_append]
        · intro c hc
          rcases List.mem_append.mp hc with hc | hc
          · exact hdig c hc
          · rw [List.mem_singleton.mp hc]
            exact digitChar_isDigit _

theorem natToStr_digits (n : Nat) :
    (natToStr n).data ≠ [] ∧ ∀ c ∈ (natToStr n).data, isDigitChar c = true := by
  obtain ⟨ds, hds, hne, hdig⟩ := natToCharsAux_digits (n + 1) n [] (Nat.lt_succ_self n)
  have : (natToStr n).data = ds := by
    show natToCharsAux (n + 1) n [] = ds
    rw [hds, List.append_nil]
  rw [this]
  exact ⟨hne, hdig⟩

theorem parseSign_no_sign (cs : List Char)
    (h1 : ∀ rest, cs ≠ '-' :: rest) (h2 : ∀ rest, cs ≠ '+' :: rest) :
    parseSign cs = (false, cs) := by
  unfold parseSign
  split
  next rest => exact absurd rfl (h1 rest)
  next rest => exact absurd rfl (h2 rest)
  next => rfl

theorem jsParseIntStr_digits (cs : List Char) (hne : cs ≠ [])
    (hd : ∀ c ∈ cs, isDigitChar c = true) :
    jsParseIntStr ⟨cs⟩ = natToStr (digitsVal cs) := by
  have hdrop : cs.dropWhile isJsWhitespace = cs :=
    dropWhile_all_false _ cs (fun c hc => digit_not_ws c (hd c hc))
  have hsig : parseSign cs = (false, cs) := parseSign_no_sign cs
    (fun rest h => absurd (hd '-' (by rw [h]; exact List.mem_cons_self '-' rest)) (by decide))
    (fun rest h => absurd (hd '+' (by rw [h]; exact List.mem_cons_self '+' rest)) (by decide))
  simp only [jsParseIntStr]
  rw [hdrop, hsig]
  rw [takeWhile_all_true _ cs hd]
  rw [if_neg (by simpa [List.isEmpty_iff] using hne)]
  rw [if_neg (by simp)]

end VibeBudget

namespace VibeBudget

theorem splitOnCharAux_iso (y1 y2 y3 y4 m1 m2 d1 d2 : Char)
    (hy1 : y1 ≠ '-') (hy2 : y2 ≠ '-') (hy3 : y3 ≠ '-') (hy4 : y4 ≠ '-')
    (hm1 : m1 ≠ '-') (hm2 : m2 ≠ '-') (hd1 : d1 ≠ '-') (hd2 : d2 ≠ '-') :
    splitOnCharAux '-' [y1, y2, y3, y4, '-', m1, m2, '-', d1, d2] [] =
      [[y1, y2, y3, y4], [m1, m2], [d1, d2]] := by
  simp [splitOnCharAux, hy1, hy2, hy3, hy4, hm1, hm2, hd1, hd2]

theorem formatDateMDY_iso (s : String) (h : isIsoDate s = true) :
    (∀ c ∈ (formatDateMDY s).data, isDigitChar c = true ∨ c = '/') ∧
      formatDateMDY s ≠ "" := by
  unfold isIsoDate at h
  split at h
  next y1 y2 y3 y4 m1 m2 d1 d2 heq =>
    simp only [Bool.and_eq_true] at h
    obtain ⟨⟨⟨⟨⟨⟨⟨h1, h2⟩, h3⟩, h4⟩, h5⟩, h6⟩, h7⟩, h8⟩ := h
    have hdash : ('-' : Char).toNat < 48 ∨ 57 < ('-' : Char).toNat := Or.inl (by decide)
    have hsplit := splitOnCharAux_iso y1 y2 y3 y4 m1 m2 d1 d2
      (digit_ne _ h1 _ hdash) (digit_ne _ h2 _ hdash) (digit_ne _ h3 _ hdash)
      (digit_ne _ h4 _ hdash) (digit_ne _ h5 _ hdash) (digit_ne _ h6 _ hdash)
      (digit_ne _ h7 _ hdash) (digit_ne _ h8 _ hdash)
    have hfmt : formatDateMDY s =
        jsParseIntStr ⟨[m1, m2]⟩ ++ "/" ++ jsParseIntStr ⟨[d1, d2]⟩ ++ "/" ++
          (⟨[y1, y2, y3, y4]⟩ : String) := by
      unfold formatDateMDY jsSplit
      rw [heq, hsplit]
      rfl
    have hm : jsParseIntStr ⟨[m1, m2]⟩ = natToStr (digitsVal [m1, m2]) :=
      jsParseIntStr_digits _ (by simp) (by
        intro c hc
        rcases List.mem_cons.mp hc with hc | hc
        · rw [hc]; exact h5
        · rw [List.mem_singleton.mp hc]; exact h6)
    have hd : jsParseIntStr ⟨[d1, d2]⟩ = natToStr (digitsVal [d1, d2]) :=
      jsParseIntStr_digits _ (by simp) (by
        intro c hc
        rcases List.mem_cons.mp hc with hc | hc
        · rw [hc]; exact h7
        · rw [List.mem_singleton.mp hc]; exact h8)
    rw [hfmt, hm, hd]
    obtain ⟨hmne, hmdig⟩ := natToStr_digits (digitsVal [m1, m2])
    obtain ⟨hdne, hddig⟩ := natToStr_digits (digitsVal [d1, d2])
    constructor
    · intro c hc
      simp only [String.data_append] at hc
      rcases List.mem_append.mp hc with hc | hc
      · rcases List.mem_append.mp hc with hc | hc
        · rcases List.mem_append.mp hc with hc | hc
          · rcases List.mem_append.mp hc with hc | hc
            · exact Or.inl (hmdig c hc)
            · exact Or.inr (List.mem_singleton.mp hc)
          · exact Or.inl (hddig c hc)
        · exact Or.inr (List.mem_singleton.mp hc)
      · simp only [List.mem_cons, List.not_mem_nil, or_false] at hc
        rcases hc with hc | hc | hc | hc
        · rw [hc]; exact Or.inl h1
        · rw [hc]; exact Or.inl h2
        · rw [hc]; exact Or.inl h3
        · rw [hc]; exact Or.inl h4
    · intro hemp
      have hdata : ((natToStr (digitsVal [m1, m2]) ++ "/" ++ natToStr (digitsVal [d1, d2]) ++
          "/" ++ (⟨[y1, y2, y3, y4]⟩ : String)).data) = [] := by
        rw [hemp]
      simp only [String.data_append, List.append_eq_nil] at hdata
      exact hmne hdata.1.1.1.1
  next =>
    exact absurd h (by simp)

end VibeBudget

namespace VibeBudget

theorem formatDateMDY_clean (s : String) (h : isIsoDate s = true) :
    jsTrim (formatDateMDY s) = formatDateMDY s ∧ formatDateMDY s ≠ "" := by
  obtain ⟨hall, hne⟩ := formatDateMDY_iso s h
  refine ⟨jsTrim_of_no_ws _ ?_, hne⟩
  intro c hc
  rcases hall c hc with hd | hs
  · exact digit_not_ws c hd
  · rw [hs]
    rfl

theorem read_contRows (tl : List TransactionItem) :
    ∀ (rest : List (List SheetVal)) (M D : String), M ≠ "" → D ≠ "" →
      (∀ it ∈ tl, goodItem it) →
      readTransactionsAux (tl.map contRowOf ++ rest) M D =
        tl.map (fun it => (⟨M, D, it.category, it.item, it.cost⟩ : TransactionRow)) ++
          readTransactionsAux rest M D := by
  induction tl with
  | nil => intro rest M D _ _ _; rfl
  | cons it tl ih =>
      intro rest M D hM hD hgood
      obtain ⟨hmt, hmn, hct, hit, hin, hiso⟩ := hgood it (List.mem_cons_self _ _)
      have hlen : ¬ (contRowOf it).length = 0 := by simp [contRowOf]
      have e2 : readCellText (contRowOf it)[2]? = it.category := hct
      have e3 : readCellText (contRowOf it)[3]? = it.item := hit
      simp only [List.map_cons, List.cons_append]
      simp only [readTransactionsAux, if_neg hlen]
      rw [show readCellText (contRowOf it)[0]? = "" from rfl,
        show readCellText (contRowOf it)[1]? = "" from rfl, e2, e3,
        show readCellCost (contRowOf it)[4]? = it.cost from rfl]
      simp only [ne_eq, not_true_eq_false, if_false]
      rw [if_pos ⟨hM, hD, hin⟩, List.singleton_append]
      rw [ih rest M D hM hD (fun x hx => hgood x (List.mem_cons_of_mem _ hx))]

theorem read_groupRows (f : TransactionItem) (tl : List TransactionItem)
    (rest : List (List SheetVal)) (curM curD : String)
    (hgood : ∀ it ∈ f :: tl, goodItem it) :
    readTransactionsAux (rowsOfGroup (f :: tl) ++ rest) curM curD =
      (⟨f.merchant, formatDateMDY f.date, f.category, f.item, f.cost⟩ : TransactionRow) ::
        (tl.map (fun it => (⟨f.merchant, formatDateMDY f.date, it.category, it.item,
            it.cost⟩ : TransactionRow)) ++
          readTransactionsAux rest f.merchant (formatDateMDY f.date)) := by
  obtain ⟨hmt, hmn, hct, hit, hin, hiso⟩ := hgood f (List.mem_cons_self _ _)
  obtain ⟨hdt, hdn⟩ := formatDateMDY_clean f.date hiso
  have hlen : ¬ (firstRowOf f).length = 0 := by simp [firstRowOf]
  have e0 : readCellText (firstRowOf f)[0]? = f.merchant := hmt
  have e1 : readCellText (firstRowOf f)[1]? = formatDateMDY f.date := hdt
  have e2 : readCellText (firstRowOf f)[2]? = f.category := hct
  have e3 : readCellText (firstRowOf f)[3]? = f.item := hit
  simp only [rowsOfGroup, List.cons_append]
  simp only [readTransactionsAux, if_neg hlen]
  rw [e0, e1, e2, e3, show readCellCost (firstRowOf f)[4]? = f.cost from rfl]
  rw [if_pos hmn, if_pos hdn, if_pos ⟨hmn, hdn, hin⟩, List.singleton_append]
  rw [read_contRows tl rest f.merchant (formatDateMDY f.date) hmn hdn
    (fun x hx => hgood x (List.mem_cons_of_mem _ hx))]

theorem readAux_flatMap (groups : List (String × List TransactionItem)) :
    ∀ curM curD, (∀ g ∈ groups, (∀ it ∈ g.2, goodItem it) ∧ g.2 ≠ []) →
      readTransactionsAux (groups.flatMap (fun g => rowsOfGroup g.2)) curM curD =
        groups.flatMap groupEmit := by
  induction groups with
  | nil => intro _ _ _; rfl
  | cons g gs ih =>
      intro curM curD hg
      obtain ⟨hgood, hne⟩ := hg g (List.mem_cons_self _ _)
      obtain ⟨f, tl, hft⟩ : ∃ f tl, g.2 = f :: tl := by
        cases hgg : g.2 with
        | nil => exact absurd hgg hne
        | cons a b => exact ⟨a, b, rfl⟩
      simp only [List.flatMap_cons, groupEmit]
      rw [hft]
      rw [read_groupRows f tl _ curM curD (hft ▸ hgood)]
      rw [ih f.merchant (formatDateMDY f.date) (fun x hx => hg x (List.mem_cons_of_mem _ hx))]
      simp [List.cons_append]

end VibeBudget

namespace VibeBudget

theorem pushGroup_ne_nil (gs : List (String × List TransactionItem)) (k : String)
    (it : TransactionItem) : pushGroup gs k it ≠ [] := by
  cases gs with
  | nil => simp [pushGroup]
  | cons p rest =>
      obtain ⟨k1, l⟩ := p
      simp only [pushGroup]
      split <;> simp

theorem foldl_pushGroup_ne_nil (l : List TransactionItem) :
    ∀ gs, gs ≠ [] → l.foldl (fun gs it => pushGroup gs (itemKey it) it) gs ≠ [] := by
  induction l with
  | nil => intro gs h; exact h
  | cons it rest ih =>
      intro gs _
      rw [List.foldl_cons]
      exact ih _ (pushGroup_ne_nil gs (itemKey it) it)

theorem groupItems_ne_nil (items : List TransactionItem) (h : items ≠ []) :
    groupItems items ≠ [] := by
  cases items with
  | nil => exact absurd rfl h
  | cons it l =>
      show List.foldl _ _ (it :: l) ≠ []
      rw [List.foldl_cons]
      exact foldl_pushGroup_ne_nil l _ (pushGroup_ne_nil [] (itemKey it) it)

/-- C3: appending a non-empty list of well-formed line items (with at least
one shared (merchant, date) group of two or more items) to a header-only
table and reading back reconstructs exactly the original groups, each row
carrying its original category, item and cost, the only change being the date
string's normalization to `M/D/YYYY`. -/
theorem claim_append_read_roundtrip (hdr : List SheetVal) (items : List TransactionItem)
    (sid : Option Int) (mergeOK : Bool) (hne : items ≠ [])
    (hgrp : ∃ g ∈ groupItems items, 2 ≤ g.2.length)
    (hgood : ∀ it ∈ items, goodItem it) :
    readTransactions (((appendPOST sid mergeOK [hdr] items).2.1).drop 1) =
      (groupItems items).flatMap groupEmit := by
  have hie : items.isEmpty = false := by
    cases items with
    | nil => exact absurd rfl hne
    | cons a l => rfl
  have hdup : anyDuplicate (existingTransactions (([hdr] : List (List SheetVal)).drop 1))
      (groupItems items) = false := by
    apply List.any_eq_false.mpr
    intro g hg
    simp [groupIsDuplicate, existingTransactions, existingTransAux]
  have hgroups_ne := groupItems_ne_nil items hne
  have hgood2 : ∀ g ∈ groupItems items, (∀ it ∈ g.2, goodItem it) ∧ g.2 ≠ [] := by
    intro g hg
    obtain ⟨hfil, hne2⟩ := groupItems_group_spec items g hg
    refine ⟨?_, hne2⟩
    intro it hit
    rw [hfil] at hit
    exact hgood it (List.mem_of_mem_filter hit)
  have hrows_ne : (buildRowsAndMerges 1 (groupItems items)).1 ≠ [] := by
    rw [buildRows_fst]
    cases hgi : groupItems items with
    | nil => exact absurd hgi hgroups_ne
    | cons g gs =>
        have hgne : g.2 ≠ [] := (hgood2 g (hgi ▸ List.mem_cons_self g gs)).2
        obtain ⟨f, tl, hft⟩ : ∃ f tl, g.2 = f :: tl := by
          cases hgg : g.2 with
          | nil => exact absurd hgg hgne
          | cons a b => exact ⟨a, b, rfl⟩
        simp [List.flatMap_cons, hft, rowsOfGroup]
  have hie2 : (buildRowsAndMerges 1 (groupItems items)).1.isEmpty = false := by
    cases hc : (buildRowsAndMerges 1 (groupItems items)).1 with
    | nil => exact absurd hc hrows_ne
    | cons a l => rfl
  have hstore : (appendPOST sid mergeOK [hdr] items).2.1 =
      [hdr] ++ (buildRowsAndMerges 1 (groupItems items)).1 := by
    simp only [appendPOST, hie, Bool.false_eq_true, if_false, List.length_singleton]
    rw [hdup]
    simp only [Bool.false_eq_true, if_false]
    rw [hie2]
    simp only [Bool.false_eq_true, if_false]
    cases hb : (buildRowsAndMerges 1 (groupItems items)).2 with
    | nil => rfl
    | cons a l =>
        cases sid with
        | none => rfl
        | some s => cases mergeOK <;> rfl
  rw [hstore, List.singleton_append]
  rw [show (hdr :: (buildRowsAndMerges 1 (groupItems items)).1).drop 1 =
    (buildRowsAndMerges 1 (groupItems items)).1 from rfl]
  unfold readTransactions
  rw [buildRows_fst]
  exact readAux_flatMap (groupItems items) "" "" hgood2

/-- C3 witness: the round trip at three concrete items with a shared group. -/
theorem claim_append_read_roundtrip_witness :
    (c3Items ≠ [] ∧ (∃ g ∈ groupItems c3Items, 2 ≤ g.2.length) ∧
      (∀ it ∈ c3Items, goodItem it)) ∧
    readTransactions (((appendPOST (some 0) true [headerRow] c3Items).2.1).drop 1) =
      (groupItems c3Items).flatMap groupEmit :=
  ⟨⟨by decide, by decide, by decide⟩,
    claim_append_read_roundtrip headerRow c3Items (some 0) true (by decide) (by decide)
      (by decide)⟩

end VibeBudget
